import Mathlib

/-!
Verification of cybozu/csa, `git-csa/cmd/draft.go`.

A shallow embedding of the `draft` sub-command:

* `taskArguments` (draft.go 22-46), the positional-argument validator that
  fills the package variable `draftOpts`;
* `insertIssueLink` (draft.go 151-177), which puts an `issue: owner/name#num`
  line into a commit message;
* `runDraftCmd` (draft.go 76-149) with `askYorN`, `confirmUncommitted`,
  `confirmIssue`, `getRepo`, `getCurrentRepo` and `createPR`
  (draft.go 179-254): the workflow, over collaborators that are parameters
  and with a record of every call it makes.

A Go `string` is a sequence of bytes.  It is represented by a `List Char`, one
`Char` for each byte (the `Char` with the same code).  Every constant the code
uses is ASCII, and the code only ever compares bytes for equality, so nothing
depends on how a byte is named.

The functions of the Go standard library that the code calls
(`strings.Contains`, `strings.Index`, `strings.HasSuffix`, `strings.Split`,
`strconv.Atoi`, `fmt.Sprintf` with `%s` and `%d`) are modelled next to their
callers, after the library's documented behaviour.
-/

namespace Csa

/-- A Go string: its bytes in order. -/
abbrev Str := List Char

/-! ## Go standard library -/

/-- `strings.HasPrefix(s, p)`. -/
def stringsHasPrefix (s p : Str) : Bool := p.isPrefixOf s

/-- `strings.HasSuffix(s, suffix)`. -/
def stringsHasSuffix (s suffix : Str) : Bool := suffix.isSuffixOf s

/-- The least `k` such that `sub` is a prefix of `s[k:]`, if there is one: the
search that `strings.Index` performs. -/
def indexAux (sub : Str) : Str → Option Nat
  | [] => if stringsHasPrefix [] sub then some 0 else none
  | c :: cs =>
    if stringsHasPrefix (c :: cs) sub then some 0
    else (indexAux sub cs).map (· + 1)

/-- `strings.Index(s, substr)`: the index of the first instance of `substr` in
`s`, or `-1` if `substr` is not present in `s`. -/
def stringsIndex (s substr : Str) : Int :=
  match indexAux substr s with
  | some k => (k : Int)
  | none => -1

/-- `strings.Contains(s, substr)`, which is `Index(s, substr) >= 0`. -/
def stringsContains (s substr : Str) : Bool := decide (stringsIndex s substr ≥ 0)

/-- `strings.Split(s, sep)` for a separator `sep` of one byte, the only form
the code uses (`"#"`): the pieces of `s` between the occurrences of `sep`.
A string without `sep` gives the one piece `s`, the empty string included. -/
def stringsSplit (sep : Char) : Str → List Str
  | [] => [[]]
  | c :: cs =>
    if c = sep then [] :: stringsSplit sep cs
    else
      match stringsSplit sep cs with
      | [] => [[c]]
      | p :: ps => (c :: p) :: ps

/-- The verb `%d` of `fmt.Sprintf` at an `int`: decimal digits, with a leading
`-` for a negative number. -/
def formatInt : Int → Str
  | Int.ofNat k => Nat.toDigits 10 k
  | Int.negSucc k => '-' :: Nat.toDigits 10 (k + 1)

/-- The two sentinel errors of package `strconv`. -/
inductive ConvErr where
  | ErrSyntax
  | ErrRange
  deriving DecidableEq, Repr

/-- A Go `error` value, as far as this file produces one: the result of
`errors.New(msg)`, or a `*strconv.NumError{Func, Num, Err}`. -/
inductive GoError where
  | errorString (msg : String)
  | numError (func : String) (num : Str) (err : ConvErr)
  deriving DecidableEq, Repr

/-- `errors.New(text)`. -/
def errorsNew (text : String) : GoError := GoError.errorString text

/-- The largest `uint64`. -/
def maxUint64 : Nat := 2 ^ 64 - 1

/-- The digit loop of `strconv.ParseUint(s, 10, 64)`: `n` is the value read so
far, a `uint64`.  A byte that is no decimal digit is a syntax error; a value
that no longer fits 64 bits is a range error, reported at the byte where it
happens. -/
def parseUintLoop : Str → Nat → Except ConvErr Nat
  | [], n => Except.ok n
  | c :: cs, n =>
    if '0' ≤ c ∧ c ≤ '9' then
      let d := c.toNat - '0'.toNat
      -- cutoff = maxUint64/10 + 1: `n*10` overflows
      if n ≥ maxUint64 / 10 + 1 then Except.error ConvErr.ErrRange
      else
        let n10 := (n * 10) % 2 ^ 64
        let n1 := (n10 + d) % 2 ^ 64
        -- `n+d` overflows
        if n1 < n10 ∨ n1 > maxUint64 then Except.error ConvErr.ErrRange
        else parseUintLoop cs n1
    else Except.error ConvErr.ErrSyntax

/-- `strconv.ParseInt(s, 10, 0)` on a platform whose `int` has 64 bits, without
the wrapping into a `*NumError`: an optional sign, then at least one decimal
digit; the value has to lie in `-2^63 .. 2^63-1`. -/
def parseInt (s : Str) : Except ConvErr Int :=
  match s with
  | [] => Except.error ConvErr.ErrSyntax
  | c :: cs =>
    let neg := decide (c = '-')
    let digits := if c = '+' ∨ c = '-' then cs else c :: cs
    match digits with
    | [] => Except.error ConvErr.ErrSyntax
    | _ :: _ =>
      match parseUintLoop digits 0 with
      | Except.error e => Except.error e
      | Except.ok un =>
        if !neg ∧ un ≥ 2 ^ 63 then Except.error ConvErr.ErrRange
        else if neg ∧ un > 2 ^ 63 then Except.error ConvErr.ErrRange
        else Except.ok (if neg then -(un : Int) else (un : Int))

/-- `strconv.Atoi(s)` for a 64-bit `int`.  Its fast path for short strings
computes what `ParseInt(s, 10, 0)` computes; every error is a `*NumError` with
`Func = "Atoi"` and `Num = s`. -/
def strconvAtoi (s : Str) : Except GoError Int :=
  match parseInt s with
  | Except.ok v => Except.ok v
  | Except.error e => Except.error (GoError.numError "Atoi" s e)

/-! ## draft.go -/

/-- The package variable `draftOpts` (draft.go 16-20). -/
structure DraftOpts where
  title : Str
  repo : Str
  issue : Int
  deriving DecidableEq, Repr

/-- The value of `draftOpts` at program start: Go's zero value. -/
def DraftOpts.zero : DraftOpts := { title := [], repo := [], issue := 0 }

/-- The function `taskArguments` (draft.go 22-46).  The `*cobra.Command` is not
used by it.  The package variable `draftOpts` is passed in and handed back next
to the returned `error` (`none` is `nil`). -/
def taskArguments (draftOpts : DraftOpts) (args : List Str) : Option GoError × DraftOpts :=
  match args with
  | [] => (none, draftOpts)
  | arg0 :: rest =>
    if (arg0 :: rest).length ≠ 1 then
      (some (errorsNew "too many arguments"), draftOpts)
    else
      let parts := stringsSplit '#' arg0
      if parts.length > 2 then
        (some (errorsNew "too many '#' in issue number"), draftOpts)
      else
        let draftOpts1 : DraftOpts :=
          if parts.length = 2 then { draftOpts with repo := parts.getD 0 [] } else draftOpts
        let issueNum : Str :=
          if parts.length = 2 then parts.getD 1 [] else arg0
        match strconvAtoi issueNum with
        | Except.error err => (some err, draftOpts1)
        | Except.ok num => (none, { draftOpts1 with issue := num })

/-- The constant `signedOffBy` of `insertIssueLink`. -/
def signedOffBy : Str := "Signed-off-by:".toList

/-- The value of `issueLink` in `insertIssueLink` (draft.go 153):
`fmt.Sprintf("issue: %s/%s#%d", issueRepoOwner, issueRepoName, issueNum)`. -/
def issueLink (issueRepoOwner issueRepoName : Str) (issueNum : Int) : Str :=
  "issue: ".toList ++ issueRepoOwner ++ "/".toList ++ issueRepoName ++ "#".toList
    ++ formatInt issueNum

/-- The function `insertIssueLink` (draft.go 151-177). -/
def insertIssueLink (message issueRepoOwner issueRepoName : Str) (issueNum : Int) : Str :=
  let link := issueLink issueRepoOwner issueRepoName issueNum
  if stringsContains message link then message
  else
    let index := stringsIndex message signedOffBy
    let messageFragment := if index ≠ -1 then message.take index.toNat else message
    let signedOfByFragment := if index ≠ -1 then message.drop index.toNat else []
    let generatedMessage0 := messageFragment
    let generatedMessage1 :=
      if messageFragment ≠ [] ∧ !stringsHasSuffix messageFragment "\n".toList then
        generatedMessage0 ++ "\n".toList
      else generatedMessage0
    let generatedMessage2 := generatedMessage1 ++ link
    if signedOfByFragment ≠ [] then generatedMessage2 ++ ("\n".toList ++ signedOfByFragment)
    else generatedMessage2


/-! ## Vocabulary of the specification -/

/-- The first occurrence of the text `sub` in `s` starts at position `k`:
`sub` is a prefix of `s[k:]`, and of no `s[j:]` with `j < k`. -/
def FirstOccurrenceAt (sub s : Str) (k : Nat) : Prop :=
  k ≤ s.length ∧ sub <+: s.drop k ∧ ∀ j, j < k → ¬ sub <+: s.drop j

instance (sub s : Str) (k : Nat) : Decidable (FirstOccurrenceAt sub s k) := by
  unfold FirstOccurrenceAt
  infer_instance

/-- The argument `a` read as an issue reference, for an argument with at most
one `#`: without a `#` the repository part `spec` is empty and the numeric part
`num` is the whole argument; with one `#`, `spec` is the text left of it and
`num` the text right of it. -/
def IssueArgument (a spec num : Str) : Prop :=
  ('#' ∉ a ∧ spec = [] ∧ num = a) ∨ ('#' ∉ spec ∧ '#' ∉ num ∧ a = spec ++ '#' :: num)

instance (a spec num : Str) : Decidable (IssueArgument a spec num) := by
  unfold IssueArgument
  infer_instance


/-! ## The collaborators of `runDraftCmd` -/

/-- The constant `defaultRepository` (draft.go 14). -/
def defaultRepository : Str := "cybozu/csa".toList

/-- Modelled from the spec: the type `GitHubRepository`, declared outside
draft.go, of which the code reads `ID`, `Owner` and `Name` (spec 3,
RepositoryIdentity).  An `ID` is an opaque handle; it is kept as text. -/
structure GitHubRepository where
  ID : Str
  Owner : Str
  Name : Str
  deriving DecidableEq, Repr

/-- Modelled from the spec: the type `PullRequest`, declared outside draft.go,
of which the code reads `ID` and `Permalink` (spec 3, PullRequestResult). -/
structure PullRequest where
  ID : Str
  Permalink : Str
  deriving DecidableEq, Repr

/-- Modelled from the spec: the result type of `GetViewer`, declared outside
draft.go, of which the code reads `ID` (spec 6, UserIdentity). -/
structure Viewer where
  ID : Str
  deriving DecidableEq, Repr

deriving instance DecidableEq for Except

/-- One step of a run that the outside can see: a call of a function or method
that draft.go does not define, with its arguments and with what it returned,
or a text written to standard output. -/
inductive Event where
  | currentBranch (r : Except GoError Str)
  | defaultBranch (r : Except GoError Str)
  | firstUnmerged (defBranch : Str) (r : Except GoError (Str × Str × Str))
  | checkUncommittedFiles (r : Except GoError Bool)
  | Ask (query : Str) (r : Except GoError Str)
  | originURL (r : Except GoError Str)
  | ExtractGitHubRepositoryName (repo : Str) (r : Except GoError (Str × Str))
  | GetRepository (owner name : Str) (r : Except GoError GitHubRepository)
  | GetIssueTitle (repo : GitHubRepository) (issue : Int) (r : Except GoError Str)
  | git (args : List Str) (r : Option GoError)
  | CreatePullRequest (repoID base head title body : Str) (draft : Bool)
      (r : Except GoError PullRequest)
  | GetViewer (r : Except GoError Viewer)
  | AddAssigneeToPullRequest (userID prID : Str) (r : Option GoError)
  | stdout (text : Str)
  deriving DecidableEq

/-- The functions and methods that draft.go calls and does not define, as
parameters.  Each one takes its arguments and the state `W` of everything
outside the program (working tree, remote, user), and gives back its result
and the next state, so that any behaviour can be put in.  A Go result
`(value, error)` is an `Except`: the code looks at the value only when the
error is `nil`.  `Ask` is `input.DefaultUI().Ask` with the options of
draft.go 180-184 (default answer `N`); `git` is the variadic `git(args...)`;
the methods of `GitHubClient` are those of the client made by `githubClient`,
which itself never returns an error (draft.go 71-74). -/
structure Collaborators (W : Type) where
  currentBranch : W → Except GoError Str × W
  defaultBranch : W → Except GoError Str × W
  firstUnmerged : Str → W → Except GoError (Str × Str × Str) × W
  checkUncommittedFiles : W → Except GoError Bool × W
  Ask : Str → W → Except GoError Str × W
  originURL : W → Except GoError Str × W
  ExtractGitHubRepositoryName : Str → W → Except GoError (Str × Str) × W
  GetRepository : Str → Str → W → Except GoError GitHubRepository × W
  GetIssueTitle : GitHubRepository → Int → W → Except GoError Str × W
  git : List Str → W → Option GoError × W
  CreatePullRequest : Str → Str → Str → Str → Str → Bool → W → Except GoError PullRequest × W
  GetViewer : W → Except GoError Viewer × W
  AddAssigneeToPullRequest : Str → Str → W → Option GoError × W

/-- The state of a run: the world outside, and the events so far, oldest
first. -/
structure RunState (W : Type) where
  world : W
  trace : List Event

/-- Calling a collaborator: the world moves on and the call is recorded with
its result. -/
def call {W α : Type} (op : W → α × W) (ev : α → Event) (s : RunState W) : α × RunState W :=
  match op s.world with
  | (r, w) => (r, { world := w, trace := s.trace ++ [ev r] })

/-- Writing `text` to standard output (`fmt.Println`, `fmt.Printf`). -/
def fmtPrint {W : Type} (text : Str) (s : RunState W) : RunState W :=
  { s with trace := s.trace ++ [Event.stdout text] }

/-! ## draft.go, the workflow -/

/-- The `switch ans` of `askYorN` (draft.go 188-192). -/
def answerIsYes (ans : Str) : Bool :=
  if ans = "y".toList ∨ ans = "Y".toList ∨ ans = "yes".toList ∨ ans = "YES".toList then true
  else false

/-- The function `askYorN` (draft.go 179-193). -/
def askYorN {W : Type} (c : Collaborators W) (query : Str) (s : RunState W) :
    Except GoError Bool × RunState W :=
  match call (c.Ask (query ++ " [y/N]".toList)) (Event.Ask (query ++ " [y/N]".toList)) s with
  | (Except.error err, s) => (Except.error err, s)
  | (Except.ok ans, s) => (Except.ok (answerIsYes ans), s)

/-- The function `confirmUncommitted` (draft.go 195-206). -/
def confirmUncommitted {W : Type} (c : Collaborators W) (s : RunState W) :
    Except GoError Bool × RunState W :=
  match call c.checkUncommittedFiles Event.checkUncommittedFiles s with
  | (Except.error err, s) => (Except.error err, s)
  | (Except.ok ok, s) =>
    if ok then (Except.ok true, s)
    else askYorN c "Continue?".toList (fmtPrint "WARNING: you have uncommitted files.\n".toList s)

/-- The function `confirmIssue` (draft.go 208-216). -/
def confirmIssue {W : Type} (c : Collaborators W) (repo : GitHubRepository) (issue : Int)
    (s : RunState W) : Except GoError Bool × RunState W :=
  match call (c.GetIssueTitle repo issue) (Event.GetIssueTitle repo issue) s with
  | (Except.error err, s) => (Except.error err, s)
  | (Except.ok title, s) =>
    askYorN c "Is this ok?".toList
      (fmtPrint (repo.Owner ++ "/".toList ++ repo.Name ++ "#".toList ++ formatInt issue
        ++ ": ".toList ++ title ++ "\n".toList) s)

/-- The function `getRepo` (draft.go 218-225). -/
def getRepo {W : Type} (c : Collaborators W) (repo : Str) (s : RunState W) :
    Except GoError GitHubRepository × RunState W :=
  match call (c.ExtractGitHubRepositoryName repo) (Event.ExtractGitHubRepositoryName repo) s with
  | (Except.error err, s) => (Except.error err, s)
  | (Except.ok (owner, name), s) =>
    call (c.GetRepository owner name) (Event.GetRepository owner name) s

/-- The function `getCurrentRepo` (draft.go 227-233). -/
def getCurrentRepo {W : Type} (c : Collaborators W) (s : RunState W) :
    Except GoError GitHubRepository × RunState W :=
  match call c.originURL Event.originURL s with
  | (Except.error err, s) => (Except.error err, s)
  | (Except.ok origin, s) => getRepo c origin s

/-- The function `createPR` (draft.go 235-254). -/
def createPR {W : Type} (c : Collaborators W) (repo : GitHubRepository)
    (defBranch branch title body : Str) (draft : Bool) (s : RunState W) :
    Except GoError PullRequest × RunState W :=
  match call (c.CreatePullRequest repo.ID defBranch branch title body draft)
      (Event.CreatePullRequest repo.ID defBranch branch title body draft) s with
  | (Except.error err, s) => (Except.error err, s)
  | (Except.ok pr, s) =>
    match call c.GetViewer Event.GetViewer
        (fmtPrint ("\nCreated a pull request: ".toList ++ pr.Permalink ++ "\n".toList) s) with
    | (Except.error err, s) => (Except.error err, s)
    | (Except.ok assignee, s) =>
      match call (c.AddAssigneeToPullRequest assignee.ID pr.ID)
          (Event.AddAssigneeToPullRequest assignee.ID pr.ID) s with
      | (some err, s) => (Except.error err, s)
      | (none, s) => (Except.ok pr, s)

/-- The end of `runDraftCmd` (draft.go 129-148), which control reaches either
after the issue gate or past it. -/
def runDraftCmdPush {W : Type} (c : Collaborators W) (draftOpts : DraftOpts) (draft : Bool)
    (branch defBranch firstSummary firstBody : Str) (curRepo issueRepo : GitHubRepository)
    (s : RunState W) : Option GoError × RunState W :=
  match call (c.git ["push".toList, "-u".toList, "origin".toList, branch ++ ":".toList ++ branch])
      (Event.git ["push".toList, "-u".toList, "origin".toList, branch ++ ":".toList ++ branch])
      s with
  | (some err, s) => (some err, s)
  | (none, s) =>
    let title := if draftOpts.title = [] then firstSummary else draftOpts.title
    let message :=
      if draftOpts.issue ≠ 0 then
        insertIssueLink firstBody issueRepo.Owner issueRepo.Name draftOpts.issue
      else firstBody
    match createPR c curRepo defBranch branch title message draft s with
    | (Except.error err, s) => (some err, s)
    | (Except.ok _, s) => (none, s)

/-- The function `runDraftCmd` (draft.go 76-149).  Its parameters `cmd` and
`args` are not used; the package variable `draftOpts` is read only. -/
def runDraftCmd {W : Type} (c : Collaborators W) (draftOpts : DraftOpts) (draft : Bool)
    (s : RunState W) : Option GoError × RunState W :=
  match call c.currentBranch Event.currentBranch s with
  | (Except.error err, s) => (some err, s)
  | (Except.ok branch, s) =>
  match call c.defaultBranch Event.defaultBranch s with
  | (Except.error err, s) => (some err, s)
  | (Except.ok defBranch, s) =>
  if branch = defBranch then
    (some (errorsNew ("direct push to " ++ String.mk defBranch ++ " is prohibited")), s)
  else
  match call (c.firstUnmerged defBranch) (Event.firstUnmerged defBranch) s with
  | (Except.error err, s) => (some err, s)
  | (Except.ok (_, firstSummary, firstBody), s) =>
  match confirmUncommitted c s with
  | (Except.error err, s) => (some err, s)
  | (Except.ok ok, s) =>
  if !ok then (none, s)
  else
  match getCurrentRepo c s with
  | (Except.error err, s) => (some err, s)
  | (Except.ok curRepo, s) =>
  match getRepo c (if draftOpts.repo ≠ [] then draftOpts.repo else defaultRepository) s with
  | (Except.error err, s) => (some err, s)
  | (Except.ok issueRepo, s) =>
  if draftOpts.issue ≠ 0 then
    match confirmIssue c issueRepo draftOpts.issue s with
    | (Except.error err, s) => (some err, s)
    | (Except.ok ok, s) =>
      if !ok then (none, s)
      else runDraftCmdPush c draftOpts draft branch defBranch firstSummary firstBody
        curRepo issueRepo s
  else runDraftCmdPush c draftOpts draft branch defBranch firstSummary firstBody
    curRepo issueRepo s

/-- A run of `runDraftCmd` from the world `w`, with nothing recorded yet: the
returned `error` and the events of the run. -/
def runFrom {W : Type} (c : Collaborators W) (draftOpts : DraftOpts) (draft : Bool) (w : W) :
    Option GoError × List Event :=
  ((runDraftCmd c draftOpts draft { world := w, trace := [] }).1,
   (runDraftCmd c draftOpts draft { world := w, trace := [] }).2.trace)

/-! ## Vocabulary for runs -/

/-- The error of a Go result `(value, error)`, `none` for `nil`. -/
def exceptError {α : Type} : Except GoError α → Option GoError
  | Except.error e => some e
  | Except.ok _ => none

/-- The error that the call of an event returned, `none` when it returned
without one; writing to standard output does not fail. -/
def Event.failure : Event → Option GoError
  | Event.currentBranch r => exceptError r
  | Event.defaultBranch r => exceptError r
  | Event.firstUnmerged _ r => exceptError r
  | Event.checkUncommittedFiles r => exceptError r
  | Event.Ask _ r => exceptError r
  | Event.originURL r => exceptError r
  | Event.ExtractGitHubRepositoryName _ r => exceptError r
  | Event.GetRepository _ _ r => exceptError r
  | Event.GetIssueTitle _ _ r => exceptError r
  | Event.git _ r => r
  | Event.CreatePullRequest _ _ _ _ _ _ r => exceptError r
  | Event.GetViewer r => exceptError r
  | Event.AddAssigneeToPullRequest _ _ r => r
  | Event.stdout _ => none

/-- The event is a `git push`. -/
def Event.isPush : Event → Bool
  | Event.git args _ => decide (args.head? = some "push".toList)
  | _ => false

/-- The event is a call of `CreatePullRequest`. -/
def Event.isCreatePullRequest : Event → Bool
  | Event.CreatePullRequest _ _ _ _ _ _ _ => true
  | _ => false

/-- The event is a call of `AddAssigneeToPullRequest`. -/
def Event.isAddAssignee : Event → Bool
  | Event.AddAssigneeToPullRequest _ _ _ => true
  | _ => false

/-- The event is a call of `GetViewer`. -/
def Event.isGetViewer : Event → Bool
  | Event.GetViewer _ => true
  | _ => false

/-- In the events `t` of a run that returned `r`, a call that failed is the
last event, and its error is what the run returned. -/
def FailsLast (r : Option GoError) : List Event → Prop
  | [] => True
  | e :: rest =>
    match e.failure with
    | none => FailsLast r rest
    | some err => rest = [] ∧ r = some err

/-- A world for examples: the branches, whether the working tree is clean, the
answers the user is going to type, and the error of `git push`, if any. -/
structure Scenario where
  branch : Str
  defBranch : Str
  clean : Bool
  answers : List Str
  pushError : Option GoError

/-- Collaborators for examples, which answer from a `Scenario`.  A repository
spec is taken as the name of a repository of `cybozu`. -/
def scripted : Collaborators Scenario where
  currentBranch w := (Except.ok w.branch, w)
  defaultBranch w := (Except.ok w.defBranch, w)
  firstUnmerged _ w :=
    (Except.ok ("0a1b2c".toList, "Fix it".toList, "Fix it\n\nSigned-off-by: foo".toList), w)
  checkUncommittedFiles w := (Except.ok w.clean, w)
  Ask _ w :=
    match w.answers with
    | [] => (Except.ok "N".toList, w)
    | a :: rest => (Except.ok a, { w with answers := rest })
  originURL w := (Except.ok "neco".toList, w)
  ExtractGitHubRepositoryName repo w := (Except.ok ("cybozu".toList, repo), w)
  GetRepository owner name w :=
    (Except.ok { ID := "R_".toList ++ name, Owner := owner, Name := name }, w)
  GetIssueTitle _ _ w := (Except.ok "An issue".toList, w)
  git _ w := (w.pushError, w)
  CreatePullRequest _ _ _ _ _ _ w :=
    (Except.ok { ID := "PR_1".toList, Permalink := "https://example.com/pull/1".toList }, w)
  GetViewer w := (Except.ok { ID := "U_1".toList }, w)
  AddAssigneeToPullRequest _ _ w := (none, w)

/-! ## The paths of the workflow

Each function of the workflow has finitely many paths.  The relations below
list them, each path with the value returned and the events it leaves, so
that a property of all runs can be checked path by path.  That every run of
the functions above is one of these paths is proved further down
(`draftRun_runDraftCmd`). -/

/-- The paths of `askYorN query`. -/
inductive AskRun (query : Str) : Except GoError Bool → List Event → Prop where
  | askFails (err : GoError) :
      AskRun query (Except.error err) [Event.Ask (query ++ " [y/N]".toList) (Except.error err)]
  | answered (ans : Str) (b : Bool) (hb : b = answerIsYes ans) :
      AskRun query (Except.ok b) [Event.Ask (query ++ " [y/N]".toList) (Except.ok ans)]

/-- The paths of `confirmUncommitted`. -/
inductive UncommittedRun : Except GoError Bool → List Event → Prop where
  | checkFails (err : GoError) :
      UncommittedRun (Except.error err) [Event.checkUncommittedFiles (Except.error err)]
  | clean : UncommittedRun (Except.ok true) [Event.checkUncommittedFiles (Except.ok true)]
  | dirty (r : Except GoError Bool) (evs : List Event) (h : AskRun "Continue?".toList r evs) :
      UncommittedRun r
        (Event.checkUncommittedFiles (Except.ok false)
          :: Event.stdout "WARNING: you have uncommitted files.\n".toList :: evs)

/-- The paths of `confirmIssue repo issue`. -/
inductive IssueRun (repo : GitHubRepository) (issue : Int) :
    Except GoError Bool → List Event → Prop where
  | titleFails (err : GoError) :
      IssueRun repo issue (Except.error err) [Event.GetIssueTitle repo issue (Except.error err)]
  | asked (title : Str) (r : Except GoError Bool) (evs : List Event)
      (h : AskRun "Is this ok?".toList r evs) :
      IssueRun repo issue r
        (Event.GetIssueTitle repo issue (Except.ok title)
          :: Event.stdout (repo.Owner ++ "/".toList ++ repo.Name ++ "#".toList ++ formatInt issue
              ++ ": ".toList ++ title ++ "\n".toList)
          :: evs)

/-- The paths of `getRepo repo`. -/
inductive RepoRun (repo : Str) : Except GoError GitHubRepository → List Event → Prop where
  | extractFails (err : GoError) :
      RepoRun repo (Except.error err) [Event.ExtractGitHubRepositoryName repo (Except.error err)]
  | looked (owner name : Str) (r : Except GoError GitHubRepository) :
      RepoRun repo r
        [Event.ExtractGitHubRepositoryName repo (Except.ok (owner, name)),
         Event.GetRepository owner name r]

/-- The paths of `getCurrentRepo`. -/
inductive CurrentRepoRun : Except GoError GitHubRepository → List Event → Prop where
  | originFails (err : GoError) :
      CurrentRepoRun (Except.error err) [Event.originURL (Except.error err)]
  | resolved (origin : Str) (r : Except GoError GitHubRepository) (evs : List Event)
      (h : RepoRun origin r evs) :
      CurrentRepoRun r (Event.originURL (Except.ok origin) :: evs)

/-- The paths of `createPR`. -/
inductive CreateRun (repo : GitHubRepository) (defBranch branch title body : Str)
    (draft : Bool) : Except GoError PullRequest → List Event → Prop where
  | createFails (err : GoError) :
      CreateRun repo defBranch branch title body draft (Except.error err)
        [Event.CreatePullRequest repo.ID defBranch branch title body draft (Except.error err)]
  | viewerFails (pr : PullRequest) (err : GoError) :
      CreateRun repo defBranch branch title body draft (Except.error err)
        [Event.CreatePullRequest repo.ID defBranch branch title body draft (Except.ok pr),
         Event.stdout ("\nCreated a pull request: ".toList ++ pr.Permalink ++ "\n".toList),
         Event.GetViewer (Except.error err)]
  | assignFails (pr : PullRequest) (assignee : Viewer) (err : GoError) :
      CreateRun repo defBranch branch title body draft (Except.error err)
        [Event.CreatePullRequest repo.ID defBranch branch title body draft (Except.ok pr),
         Event.stdout ("\nCreated a pull request: ".toList ++ pr.Permalink ++ "\n".toList),
         Event.GetViewer (Except.ok assignee),
         Event.AddAssigneeToPullRequest assignee.ID pr.ID (some err)]
  | assigned (pr : PullRequest) (assignee : Viewer) :
      CreateRun repo defBranch branch title body draft (Except.ok pr)
        [Event.CreatePullRequest repo.ID defBranch branch title body draft (Except.ok pr),
         Event.stdout ("\nCreated a pull request: ".toList ++ pr.Permalink ++ "\n".toList),
         Event.GetViewer (Except.ok assignee),
         Event.AddAssigneeToPullRequest assignee.ID pr.ID none]

/-- The paths of the end of `runDraftCmd` (draft.go 129-148). -/
inductive PushRun (o : DraftOpts) (draft : Bool)
    (branch defBranch firstSummary firstBody : Str) (curRepo issueRepo : GitHubRepository) :
    Option GoError → List Event → Prop where
  | pushFails (err : GoError) :
      PushRun o draft branch defBranch firstSummary firstBody curRepo issueRepo (some err)
        [Event.git ["push".toList, "-u".toList, "origin".toList, branch ++ ":".toList ++ branch]
          (some err)]
  | pushed (r : Except GoError PullRequest) (evs : List Event)
      (h : CreateRun curRepo defBranch branch
        (if o.title = [] then firstSummary else o.title)
        (if o.issue ≠ 0 then insertIssueLink firstBody issueRepo.Owner issueRepo.Name o.issue
          else firstBody)
        draft r evs) :
      PushRun o draft branch defBranch firstSummary firstBody curRepo issueRepo (exceptError r)
        (Event.git ["push".toList, "-u".toList, "origin".toList, branch ++ ":".toList ++ branch]
          none :: evs)

/-- The paths of `runDraftCmd` after the uncommitted-files gate was passed
(draft.go 101-149). -/
inductive GatedRun (o : DraftOpts) (draft : Bool)
    (branch defBranch firstSummary firstBody : Str) :
    Option GoError → List Event → Prop where
  | currentRepoFails (err : GoError) (evsC : List Event)
      (hC : CurrentRepoRun (Except.error err) evsC) :
      GatedRun o draft branch defBranch firstSummary firstBody (some err) evsC
  | issueRepoFails (curRepo : GitHubRepository) (evsC : List Event)
      (hC : CurrentRepoRun (Except.ok curRepo) evsC) (err : GoError) (evsR : List Event)
      (hR : RepoRun (if o.repo ≠ [] then o.repo else defaultRepository) (Except.error err) evsR) :
      GatedRun o draft branch defBranch firstSummary firstBody (some err) (evsC ++ evsR)
  | issueFails (curRepo : GitHubRepository) (evsC : List Event)
      (hC : CurrentRepoRun (Except.ok curRepo) evsC) (issueRepo : GitHubRepository)
      (evsR : List Event)
      (hR : RepoRun (if o.repo ≠ [] then o.repo else defaultRepository) (Except.ok issueRepo) evsR)
      (hi : o.issue ≠ 0) (err : GoError) (evsI : List Event)
      (hI : IssueRun issueRepo o.issue (Except.error err) evsI) :
      GatedRun o draft branch defBranch firstSummary firstBody (some err) (evsC ++ evsR ++ evsI)
  | issueDeclined (curRepo : GitHubRepository) (evsC : List Event)
      (hC : CurrentRepoRun (Except.ok curRepo) evsC) (issueRepo : GitHubRepository)
      (evsR : List Event)
      (hR : RepoRun (if o.repo ≠ [] then o.repo else defaultRepository) (Except.ok issueRepo) evsR)
      (hi : o.issue ≠ 0) (evsI : List Event)
      (hI : IssueRun issueRepo o.issue (Except.ok false) evsI) :
      GatedRun o draft branch defBranch firstSummary firstBody none (evsC ++ evsR ++ evsI)
  | issueApproved (curRepo : GitHubRepository) (evsC : List Event)
      (hC : CurrentRepoRun (Except.ok curRepo) evsC) (issueRepo : GitHubRepository)
      (evsR : List Event)
      (hR : RepoRun (if o.repo ≠ [] then o.repo else defaultRepository) (Except.ok issueRepo) evsR)
      (hi : o.issue ≠ 0) (evsI : List Event)
      (hI : IssueRun issueRepo o.issue (Except.ok true) evsI)
      (r : Option GoError) (evsP : List Event)
      (hP : PushRun o draft branch defBranch firstSummary firstBody curRepo issueRepo r evsP) :
      GatedRun o draft branch defBranch firstSummary firstBody r (evsC ++ evsR ++ evsI ++ evsP)
  | noIssue (curRepo : GitHubRepository) (evsC : List Event)
      (hC : CurrentRepoRun (Except.ok curRepo) evsC) (issueRepo : GitHubRepository)
      (evsR : List Event)
      (hR : RepoRun (if o.repo ≠ [] then o.repo else defaultRepository) (Except.ok issueRepo) evsR)
      (hi : o.issue = 0) (r : Option GoError) (evsP : List Event)
      (hP : PushRun o draft branch defBranch firstSummary firstBody curRepo issueRepo r evsP) :
      GatedRun o draft branch defBranch firstSummary firstBody r (evsC ++ evsR ++ evsP)

/-- The paths of `runDraftCmd`. -/
inductive DraftRun (o : DraftOpts) (draft : Bool) : Option GoError → List Event → Prop where
  | currentBranchFails (err : GoError) :
      DraftRun o draft (some err) [Event.currentBranch (Except.error err)]
  | defaultBranchFails (branch : Str) (err : GoError) :
      DraftRun o draft (some err)
        [Event.currentBranch (Except.ok branch), Event.defaultBranch (Except.error err)]
  | prohibited (branch : Str) :
      DraftRun o draft
        (some (errorsNew ("direct push to " ++ String.mk branch ++ " is prohibited")))
        [Event.currentBranch (Except.ok branch), Event.defaultBranch (Except.ok branch)]
  | firstUnmergedFails (branch defBranch : Str) (hne : branch ≠ defBranch) (err : GoError) :
      DraftRun o draft (some err)
        [Event.currentBranch (Except.ok branch), Event.defaultBranch (Except.ok defBranch),
         Event.firstUnmerged defBranch (Except.error err)]
  | uncommittedFails (branch defBranch : Str) (hne : branch ≠ defBranch)
      (hash firstSummary firstBody : Str) (err : GoError) (evsU : List Event)
      (hU : UncommittedRun (Except.error err) evsU) :
      DraftRun o draft (some err)
        (Event.currentBranch (Except.ok branch) :: Event.defaultBranch (Except.ok defBranch)
          :: Event.firstUnmerged defBranch (Except.ok (hash, firstSummary, firstBody)) :: evsU)
  | uncommittedDeclined (branch defBranch : Str) (hne : branch ≠ defBranch)
      (hash firstSummary firstBody : Str) (evsU : List Event)
      (hU : UncommittedRun (Except.ok false) evsU) :
      DraftRun o draft none
        (Event.currentBranch (Except.ok branch) :: Event.defaultBranch (Except.ok defBranch)
          :: Event.firstUnmerged defBranch (Except.ok (hash, firstSummary, firstBody)) :: evsU)
  | gated (branch defBranch : Str) (hne : branch ≠ defBranch)
      (hash firstSummary firstBody : Str) (evsU : List Event)
      (hU : UncommittedRun (Except.ok true) evsU) (r : Option GoError) (evsG : List Event)
      (hG : GatedRun o draft branch defBranch firstSummary firstBody r evsG) :
      DraftRun o draft r
        (Event.currentBranch (Except.ok branch) :: Event.defaultBranch (Except.ok defBranch)
          :: Event.firstUnmerged defBranch (Except.ok (hash, firstSummary, firstBody))
          :: (evsU ++ evsG))

/-! ## Vocabulary of the specification, for runs -/

/-- Equality of two texts when the case of ASCII letters is ignored, as the
specification words the comparison of an answer. -/
def equalFold (s t : Str) : Bool := s.map Char.toLower == t.map Char.toLower

/-- The event belongs to the issue-identity gate: the call of `GetIssueTitle`,
or the question `Is this ok?`. -/
def Event.isIssuePrompt : Event → Bool
  | Event.GetIssueTitle _ _ _ => true
  | Event.Ask query _ => decide (query = "Is this ok? [y/N]".toList)
  | _ => false

/-- The event is a call of `GetRepository` that found the repository. -/
def Event.isRepositoryFound : Event → Bool
  | Event.GetRepository _ _ (Except.ok _) => true
  | _ => false

/-- The repository spec of a call of `ExtractGitHubRepositoryName`, with which
the resolution of a repository starts. -/
def Event.repoSpec : Event → Option Str
  | Event.ExtractGitHubRepositoryName repo _ => some repo
  | _ => none

/-! ## The library model meets its specification -/

theorem stringsHasPrefix_iff (s p : Str) : stringsHasPrefix s p = true ↔ p <+: s := by
  unfold stringsHasPrefix
  exact List.isPrefixOf_iff_prefix

theorem stringsHasSuffix_iff (s suffix : Str) :
    stringsHasSuffix s suffix = true ↔ suffix <:+ s := by
  unfold stringsHasSuffix
  exact List.isSuffixOf_iff_suffix

/-- The position found by `indexAux` is the first one at which `sub` occurs. -/
theorem indexAux_eq_some_iff (sub : Str) : ∀ (s : Str) (k : Nat),
    indexAux sub s = some k ↔
      (k ≤ s.length ∧ sub <+: s.drop k ∧ ∀ j, j < k → ¬ sub <+: s.drop j) := by
  intro s
  induction s with
  | nil =>
    intro k
    unfold indexAux
    by_cases hp : stringsHasPrefix [] sub = true
    · rw [if_pos hp]
      have hp2 := (stringsHasPrefix_iff _ _).1 hp
      constructor
      · intro h
        have hk : k = 0 := by injection h with h; exact h.symm
        subst hk
        exact ⟨Nat.le_refl _, by simpa using hp2, fun j hj => absurd hj (Nat.not_lt_zero j)⟩
      · rintro ⟨hk, -, -⟩
        have : k = 0 := by simpa using hk
        rw [this]
    · rw [if_neg hp]
      constructor
      · intro h; cases h
      · rintro ⟨-, h2, -⟩
        exfalso
        apply hp
        rw [stringsHasPrefix_iff]
        simpa using h2
  | cons c cs ih =>
    intro k
    unfold indexAux
    by_cases hp : stringsHasPrefix (c :: cs) sub = true
    · rw [if_pos hp]
      have hp2 := (stringsHasPrefix_iff _ _).1 hp
      constructor
      · intro h
        have hk : k = 0 := by injection h with h; exact h.symm
        subst hk
        exact ⟨Nat.zero_le _, by simpa using hp2, fun j hj => absurd hj (Nat.not_lt_zero j)⟩
      · rintro ⟨-, -, h3⟩
        cases k with
        | zero => rfl
        | succ k => exact absurd (by simpa using hp2) (h3 0 (Nat.succ_pos k))
    · rw [if_neg hp]
      have hp2 : ¬ sub <+: c :: cs := fun h => hp ((stringsHasPrefix_iff _ _).2 h)
      cases k with
      | zero =>
        constructor
        · intro h
          cases hi : indexAux sub cs with
          | none => rw [hi] at h; cases h
          | some k' => rw [hi] at h; simp at h
        · rintro ⟨-, h2, -⟩
          exact absurd (by simpa using h2) hp2
      | succ k =>
        have hmap : Option.map (· + 1) (indexAux sub cs) = some (k + 1) ↔
            indexAux sub cs = some k := by
          cases hi : indexAux sub cs with
          | none => simp
          | some k' => simp
        rw [hmap, ih k]
        constructor
        · rintro ⟨h1, h2, h3⟩
          refine ⟨by simpa using h1, by simpa using h2, ?_⟩
          intro j hj
          cases j with
          | zero => simpa using hp2
          | succ j => simpa using h3 j (Nat.lt_of_succ_lt_succ hj)
        · rintro ⟨h1, h2, h3⟩
          refine ⟨by simpa using h1, by simpa using h2, ?_⟩
          intro j hj
          simpa using h3 (j + 1) (Nat.succ_lt_succ hj)

/-- An occurrence of `sub` in `s` is `sub` being a prefix of some `s[k:]`. -/
theorem infix_iff_prefix_drop (sub s : Str) :
    sub <:+: s ↔ ∃ k, k ≤ s.length ∧ sub <+: s.drop k := by
  constructor
  · rintro ⟨a, b, h⟩
    refine ⟨a.length, ?_, ?_⟩
    · rw [← h]; simp
    · rw [← h]
      simp [List.append_assoc]
  · rintro ⟨k, -, b, hb⟩
    refine ⟨s.take k, b, ?_⟩
    rw [List.append_assoc, hb, List.take_append_drop]

theorem indexAux_eq_none_iff (sub s : Str) : indexAux sub s = none ↔ ¬ sub <:+: s := by
  rw [infix_iff_prefix_drop]
  constructor
  · intro h
    rintro ⟨k, hk, hpre⟩
    -- the least such position is found by the search
    have hex : ∃ k, k ≤ s.length ∧ sub <+: s.drop k := ⟨k, hk, hpre⟩
    classical
    let k0 := Nat.find hex
    have h0 := Nat.find_spec hex
    have hmin : ∀ j, j < k0 → ¬ sub <+: s.drop j := by
      intro j hj hjp
      exact Nat.find_min hex hj ⟨by have := h0.1; omega, hjp⟩
    have := (indexAux_eq_some_iff sub s k0).2 ⟨h0.1, h0.2, hmin⟩
    rw [h] at this
    cases this
  · intro h
    cases hi : indexAux sub s with
    | none => rfl
    | some k =>
      have := (indexAux_eq_some_iff sub s k).1 hi
      exact absurd ⟨k, this.1, this.2.1⟩ h

theorem stringsContains_iff (s sub : Str) : stringsContains s sub = true ↔ sub <:+: s := by
  unfold stringsContains stringsIndex
  cases hi : indexAux sub s with
  | none =>
    have := (indexAux_eq_none_iff sub s).1 hi
    simp [this]
  | some k =>
    have h := (indexAux_eq_some_iff sub s k).1 hi
    have : sub <:+: s := (infix_iff_prefix_drop sub s).2 ⟨k, h.1, h.2.1⟩
    simp [this]

/-! ## The three paths of `insertIssueLink` -/

/-- The newline that `insertIssueLink` puts between the message fragment and
the issue link (draft.go 168-170). -/
theorem newline_toList : "\n".toList = ['\n'] := rfl

theorem signedOffBy_ne_nil : signedOffBy ≠ [] := by decide

/-- Path 1 (draft.go 156-158): the link is already there. -/
theorem insertIssueLink_of_contains (m o n : Str) (i : Int)
    (h : issueLink o n i <:+: m) : insertIssueLink m o n i = m := by
  unfold insertIssueLink
  simp only [(stringsContains_iff m (issueLink o n i)).2 h, if_true]

/-- Path 2: no link yet, and `Signed-off-by:` first occurs at `k`. -/
theorem insertIssueLink_of_index (m o n : Str) (i : Int) (k : Nat)
    (h : ¬ issueLink o n i <:+: m) (hk : indexAux signedOffBy m = some k) :
    insertIssueLink m o n i =
      m.take k ++ (if m.take k ≠ [] ∧ ¬ ['\n'] <:+ m.take k then ['\n'] else [])
        ++ issueLink o n i ++ ['\n'] ++ m.drop k := by
  have hc : stringsContains m (issueLink o n i) = false := by
    cases hb : stringsContains m (issueLink o n i) with
    | false => rfl
    | true => exact absurd ((stringsContains_iff _ _).1 hb) h
  have hidx : stringsIndex m signedOffBy = (k : Int) := by
    unfold stringsIndex; rw [hk]
  have hne : ((k : Int) ≠ -1) := by omega
  have hspec := (indexAux_eq_some_iff signedOffBy m k).1 hk
  have hdrop : m.drop k ≠ [] := by
    intro h0
    rw [h0] at hspec
    exact signedOffBy_ne_nil (List.prefix_nil.1 hspec.2.1)
  unfold insertIssueLink
  simp only [hc, hidx, hne, Int.toNat_ofNat, newline_toList, if_true, hdrop, ne_eq,
    not_false_eq_true, Bool.false_eq_true, if_false]
  generalize m.take k = frag
  by_cases hs : stringsHasSuffix frag ['\n'] = true
  · have hs2 := (stringsHasSuffix_iff _ _).1 hs
    simp [hs, hs2]
  · have hs2 : ¬ ['\n'] <:+ frag := fun h => hs ((stringsHasSuffix_iff _ _).2 h)
    simp only [Bool.not_eq_true] at hs
    by_cases he : frag = [] <;> simp [hs, hs2, he]

/-- Path 3: no link yet, and no `Signed-off-by:` either. -/
theorem insertIssueLink_of_no_index (m o n : Str) (i : Int)
    (h : ¬ issueLink o n i <:+: m) (hk : indexAux signedOffBy m = none) :
    insertIssueLink m o n i =
      m ++ (if m ≠ [] ∧ ¬ ['\n'] <:+ m then ['\n'] else []) ++ issueLink o n i := by
  have hc : stringsContains m (issueLink o n i) = false := by
    cases hb : stringsContains m (issueLink o n i) with
    | false => rfl
    | true => exact absurd ((stringsContains_iff _ _).1 hb) h
  have hidx : stringsIndex m signedOffBy = -1 := by
    unfold stringsIndex; rw [hk]
  unfold insertIssueLink
  simp only [hc, hidx, newline_toList, ne_eq, not_true_eq_false, if_false,
    Bool.false_eq_true]
  by_cases hs : stringsHasSuffix m ['\n'] = true
  · have hs2 := (stringsHasSuffix_iff _ _).1 hs
    simp [hs, hs2]
  · have hs2 : ¬ ['\n'] <:+ m := fun h => hs ((stringsHasSuffix_iff _ _).2 h)
    simp only [Bool.not_eq_true] at hs
    by_cases he : m = [] <;> simp [hs, hs2, he]

/-- Whatever the path, the result has the issue link in it. -/
theorem issueLink_infix_insertIssueLink (m o n : Str) (i : Int) :
    issueLink o n i <:+: insertIssueLink m o n i := by
  by_cases h : issueLink o n i <:+: m
  · rw [insertIssueLink_of_contains m o n i h]; exact h
  · cases hk : indexAux signedOffBy m with
    | none =>
      rw [insertIssueLink_of_no_index m o n i h hk]
      exact (List.suffix_append _ _).isInfix
    | some k =>
      rw [insertIssueLink_of_index m o n i k h hk]
      exact (List.infix_append _ _ _).trans (List.prefix_append _ _).isInfix

/-! ## Shape of the issue link -/

theorem issueLink_eq (o n : Str) (i : Int) :
    issueLink o n i =
      'i' :: 's' :: 's' :: 'u' :: 'e' :: ':' :: ' ' :: (o ++ '/' :: (n ++ '#' :: formatInt i)) := by
  have h1 : "issue: ".toList = ['i', 's', 's', 'u', 'e', ':', ' '] := rfl
  have h2 : "/".toList = ['/'] := rfl
  have h3 : "#".toList = ['#'] := rfl
  unfold issueLink
  rw [h1, h2, h3]
  simp [List.append_assoc]

/-- The letter `u` of `issue` is in every issue link: a message without that
letter does not contain the link. -/
theorem not_issueLink_infix_of_not_mem (m o n : Str) (i : Int) (h : 'u' ∉ m) :
    ¬ issueLink o n i <:+: m := by
  intro hin
  apply h
  apply hin.subset
  rw [issueLink_eq]
  simp

/-! ## Claims C1 to C4: `insertIssueLink` -/

/-- C1. `insertIssueLink` is idempotent: applying it to its own result, with
the same owner, name and issue number, changes nothing. -/
theorem insertIssueLink_idempotent (m o n : Str) (i : Int) :
    insertIssueLink (insertIssueLink m o n i) o n i = insertIssueLink m o n i :=
  insertIssueLink_of_contains _ o n i (issueLink_infix_insertIssueLink m o n i)

/-- C2. When the message `m` does not contain the issue link and
`Signed-off-by:` first occurs at position `k`, the result is `m[0:k]`, then one
newline exactly when `m[0:k]` is non-empty and does not end in a newline, then
the link, a newline and `m[k:]`.  The two messages of the test table follow,
for every owner, name and number. -/
theorem insertIssueLink_signedOffBy (m o n : Str) (i : Int) (k : Nat)
    (hlink : ¬ issueLink o n i <:+: m) (hk : FirstOccurrenceAt signedOffBy m k) :
    insertIssueLink m o n i =
        m.take k ++ (if m.take k ≠ [] ∧ ¬ ['\n'] <:+ m.take k then ['\n'] else [])
          ++ issueLink o n i ++ ['\n'] ++ m.drop k
      ∧ insertIssueLink "Signed-off-by: foo".toList o n i =
          issueLink o n i ++ "\nSigned-off-by: foo".toList
      ∧ insertIssueLink "message\n\nSigned-off-by: foo".toList o n i =
          "message\n\n".toList ++ issueLink o n i ++ "\nSigned-off-by: foo".toList := by
  refine ⟨?_, ?_, ?_⟩
  · exact insertIssueLink_of_index m o n i k hlink ((indexAux_eq_some_iff _ _ _).2 hk)
  · have hu : ¬ issueLink o n i <:+: "Signed-off-by: foo".toList :=
      not_issueLink_infix_of_not_mem _ o n i (by decide)
    have hi : indexAux signedOffBy "Signed-off-by: foo".toList = some 0 := by decide
    rw [insertIssueLink_of_index _ o n i 0 hu hi]
    have ht : List.take 0 "Signed-off-by: foo".toList = [] := rfl
    have hd : List.drop 0 "Signed-off-by: foo".toList = "Signed-off-by: foo".toList := rfl
    have he : "\nSigned-off-by: foo".toList = '\n' :: "Signed-off-by: foo".toList := rfl
    rw [ht, hd, he]
    simp
  · have hu : ¬ issueLink o n i <:+: "message\n\nSigned-off-by: foo".toList :=
      not_issueLink_infix_of_not_mem _ o n i (by decide)
    have hi : indexAux signedOffBy "message\n\nSigned-off-by: foo".toList = some 9 := by decide
    rw [insertIssueLink_of_index _ o n i 9 hu hi]
    have ht : List.take 9 "message\n\nSigned-off-by: foo".toList = "message\n\n".toList := rfl
    have hd : List.drop 9 "message\n\nSigned-off-by: foo".toList
        = "Signed-off-by: foo".toList := rfl
    have he : "\nSigned-off-by: foo".toList = '\n' :: "Signed-off-by: foo".toList := rfl
    have hs : ['\n'] <:+ "message\n\n".toList := by decide
    rw [ht, hd, he, if_neg (fun h => h.2 hs)]
    simp

theorem insertIssueLink_signedOffBy_witness :
    (¬ issueLink "cybozu".toList "csa".toList 1 <:+: "fix\nSigned-off-by: foo".toList)
      ∧ FirstOccurrenceAt signedOffBy "fix\nSigned-off-by: foo".toList 4
      ∧ insertIssueLink "fix\nSigned-off-by: foo".toList "cybozu".toList "csa".toList 1 =
          "fix\nissue: cybozu/csa#1\nSigned-off-by: foo".toList :=
  ⟨by decide, by decide,
    (insertIssueLink_signedOffBy "fix\nSigned-off-by: foo".toList "cybozu".toList
      "csa".toList 1 4 (by decide) (by decide)).1.trans (by decide)⟩

/-- C3. When the message `m` contains neither the issue link nor
`Signed-off-by:`, the result is `m`, then one newline exactly when `m` is
non-empty and does not end in a newline, then the link.  So the empty message
gives the link alone, and `message` and `message\n` both give the link on the
line after `message`, with no blank line between. -/
theorem insertIssueLink_append (m o n : Str) (i : Int)
    (hlink : ¬ issueLink o n i <:+: m) (hsob : ¬ signedOffBy <:+: m) :
    insertIssueLink m o n i =
        m ++ (if m ≠ [] ∧ ¬ ['\n'] <:+ m then ['\n'] else []) ++ issueLink o n i
      ∧ insertIssueLink [] o n i = issueLink o n i
      ∧ insertIssueLink "message".toList o n i = "message\n".toList ++ issueLink o n i
      ∧ insertIssueLink "message\n".toList o n i = "message\n".toList ++ issueLink o n i := by
  refine ⟨?_, ?_, ?_, ?_⟩
  · exact insertIssueLink_of_no_index m o n i hlink ((indexAux_eq_none_iff _ _).2 hsob)
  · have hu : ¬ issueLink o n i <:+: ([] : Str) :=
      not_issueLink_infix_of_not_mem _ o n i (by decide)
    rw [insertIssueLink_of_no_index _ o n i hu (by decide)]
    simp
  · have hu : ¬ issueLink o n i <:+: "message".toList :=
      not_issueLink_infix_of_not_mem _ o n i (by decide)
    have hs : "message".toList ≠ [] ∧ ¬ ['\n'] <:+ "message".toList := by decide
    have he : "message\n".toList = "message".toList ++ ['\n'] := rfl
    rw [insertIssueLink_of_no_index _ o n i hu (by decide), if_pos hs, he]
  · have hu : ¬ issueLink o n i <:+: "message\n".toList :=
      not_issueLink_infix_of_not_mem _ o n i (by decide)
    have hs : ['\n'] <:+ "message\n".toList := by decide
    rw [insertIssueLink_of_no_index _ o n i hu (by decide), if_neg (fun h => h.2 hs),
      List.append_nil]

theorem insertIssueLink_append_witness :
    (¬ issueLink "cybozu".toList "csa".toList 1 <:+: "message".toList)
      ∧ (¬ signedOffBy <:+: "message".toList)
      ∧ insertIssueLink "message".toList "cybozu".toList "csa".toList 1 =
          "message\nissue: cybozu/csa#1".toList :=
  ⟨by decide, by decide,
    (insertIssueLink_append "message".toList "cybozu".toList "csa".toList 1
      (by decide) (by decide)).1.trans (by decide)⟩

/-- C4. A message that already contains the issue link verbatim is returned
unchanged; so is the message that is the issue link and nothing else. -/
theorem insertIssueLink_unchanged (m o n : Str) (i : Int)
    (h : issueLink o n i <:+: m) :
    insertIssueLink m o n i = m
      ∧ insertIssueLink (issueLink o n i) o n i = issueLink o n i :=
  ⟨insertIssueLink_of_contains m o n i h,
    insertIssueLink_of_contains _ o n i List.infix_rfl⟩

theorem insertIssueLink_unchanged_witness :
    issueLink "cybozu".toList "csa".toList 1 <:+: "see issue: cybozu/csa#1\n".toList
      ∧ insertIssueLink "see issue: cybozu/csa#1\n".toList "cybozu".toList "csa".toList 1 =
          "see issue: cybozu/csa#1\n".toList :=
  ⟨by decide,
    (insertIssueLink_unchanged "see issue: cybozu/csa#1\n".toList "cybozu".toList
      "csa".toList 1 (by decide)).1⟩

/-! ## `strings.Split` at one byte -/

theorem stringsSplit_ne_nil (sep : Char) (s : Str) : stringsSplit sep s ≠ [] := by
  cases s with
  | nil => simp [stringsSplit]
  | cons c cs =>
    unfold stringsSplit
    split
    · simp
    · split <;> simp

/-- A string without the separator is one piece. -/
theorem stringsSplit_of_not_mem (sep : Char) (s : Str) (h : sep ∉ s) :
    stringsSplit sep s = [s] := by
  induction s with
  | nil => rfl
  | cons c cs ih =>
    have hc : c ≠ sep := fun e => h (by simp [e])
    have hcs : sep ∉ cs := fun e => h (List.mem_cons_of_mem _ e)
    unfold stringsSplit
    rw [if_neg hc, ih hcs]

/-- The first piece ends at the first separator. -/
theorem stringsSplit_append_sep (sep : Char) (l r : Str) (h : sep ∉ l) :
    stringsSplit sep (l ++ sep :: r) = l :: stringsSplit sep r := by
  induction l with
  | nil =>
    show stringsSplit sep (sep :: r) = _
    rw [stringsSplit, if_pos rfl]
  | cons c cs ih =>
    have hc : c ≠ sep := fun e => h (by simp [e])
    have hcs : sep ∉ cs := fun e => h (List.mem_cons_of_mem _ e)
    show stringsSplit sep (c :: (cs ++ sep :: r)) = _
    rw [stringsSplit, if_neg hc, ih hcs]

/-- There is one piece more than there are separators. -/
theorem length_stringsSplit (sep : Char) (s : Str) :
    (stringsSplit sep s).length = s.count sep + 1 := by
  induction s with
  | nil => rfl
  | cons c cs ih =>
    unfold stringsSplit
    by_cases hc : c = sep
    · subst hc
      simp [ih]
    · rw [if_neg hc]
      have hcnt : (c :: cs).count sep = cs.count sep := by
        rw [List.count_cons]
        simp [hc]
      rw [hcnt, ← ih]
      cases hs : stringsSplit sep cs with
      | nil => exact absurd hs (stringsSplit_ne_nil sep cs)
      | cons p ps => simp

/-- An argument has at most one `#` exactly when it reads as an issue
reference. -/
theorem count_le_one_iff_issueArgument (a : Str) :
    a.count '#' ≤ 1 ↔ ∃ spec num, IssueArgument a spec num := by
  constructor
  · intro h
    by_cases hm : '#' ∈ a
    · obtain ⟨l, r, hlr⟩ := List.append_of_mem hm
      have hcount : a.count '#' = l.count '#' + (r.count '#' + 1) := by
        rw [hlr, List.count_append, List.count_cons_self]
      have hl : '#' ∉ l := by
        intro hin
        have := List.count_pos_iff.2 hin
        omega
      have hr : '#' ∉ r := by
        intro hin
        have := List.count_pos_iff.2 hin
        omega
      exact ⟨l, r, Or.inr ⟨hl, hr, hlr⟩⟩
    · exact ⟨[], a, Or.inl ⟨hm, rfl, rfl⟩⟩
  · rintro ⟨spec, num, h | h⟩
    · rw [List.count_eq_zero_of_not_mem h.1]
      exact Nat.zero_le 1
    · rw [h.2.2, List.count_append, List.count_cons_self,
        List.count_eq_zero_of_not_mem h.1, List.count_eq_zero_of_not_mem h.2.1]

/-! ## The paths of `taskArguments` -/

/-- A single argument without `#`: the whole argument goes to `strconv.Atoi`. -/
theorem taskArguments_no_sharp (o : DraftOpts) (a : Str) (h : '#' ∉ a) :
    taskArguments o [a] =
      match strconvAtoi a with
      | Except.error err => (some err, o)
      | Except.ok num => (none, { o with issue := num }) := by
  unfold taskArguments
  simp [stringsSplit_of_not_mem '#' a h]

/-- A single argument with one `#`: the left part is stored as `repo` before
the right part goes to `strconv.Atoi`. -/
theorem taskArguments_one_sharp (o : DraftOpts) (l r : Str) (hl : '#' ∉ l) (hr : '#' ∉ r) :
    taskArguments o [l ++ '#' :: r] =
      match strconvAtoi r with
      | Except.error err => (some err, { o with repo := l })
      | Except.ok num => (none, { o with repo := l, issue := num }) := by
  unfold taskArguments
  simp [stringsSplit_append_sep '#' l r hl, stringsSplit_of_not_mem '#' r hr]

/-- A single argument with more than one `#`. -/
theorem taskArguments_many_sharp (o : DraftOpts) (a : Str) (h : 1 < a.count '#') :
    taskArguments o [a] = (some (errorsNew "too many '#' in issue number"), o) := by
  have hlen : (stringsSplit '#' a).length > 2 := by
    rw [length_stringsSplit]; omega
  unfold taskArguments
  simp [hlen]

/-- Every error of `strconv.Atoi` is a `*NumError` for `Atoi` at its input. -/
theorem strconvAtoi_error (s : Str) (err : GoError) (h : strconvAtoi s = Except.error err) :
    ∃ e, err = GoError.numError "Atoi" s e := by
  unfold strconvAtoi at h
  cases hp : parseInt s with
  | ok v => rw [hp] at h; cases h
  | error e =>
    rw [hp] at h
    injection h with h
    exact ⟨e, h.symm⟩

/-- What `strconv.Atoi` accepts is an `int` of 64 bits. -/
theorem strconvAtoi_range (s : Str) (v : Int) (h : strconvAtoi s = Except.ok v) :
    -(2 ^ 63) ≤ v ∧ v < 2 ^ 63 := by
  unfold strconvAtoi at h
  cases hp : parseInt s with
  | error e => rw [hp] at h; cases h
  | ok w =>
    rw [hp] at h
    injection h with h
    subst h
    unfold parseInt at hp
    cases s with
    | nil => cases hp
    | cons c cs =>
      simp only at hp
      split at hp
      · cases hp
      · split at hp
        · cases hp
        · rename_i un hun
          split at hp
          · cases hp
          · split at hp
            · cases hp
            · rename_i h1 h2
              injection hp with hp
              subst hp
              by_cases hneg : c = '-'
              · simp [hneg] at h2 ⊢
                omega
              · simp [hneg] at h1 ⊢
                omega

/-- Either reading of an argument as an issue reference leads to the same
two outcomes, decided by `strconv.Atoi` at the numeric part. -/
theorem taskArguments_of_issueArgument (o : DraftOpts) (a spec num : Str)
    (ha : IssueArgument a spec num) :
    (∀ v, strconvAtoi num = Except.ok v →
        (taskArguments o [a]).1 = none ∧ (taskArguments o [a]).2.issue = v
          ∧ (taskArguments o [a]).2.title = o.title
          ∧ (taskArguments o [a]).2.repo = (if '#' ∈ a then spec else o.repo))
      ∧ (∀ err, strconvAtoi num = Except.error err →
        (taskArguments o [a]).1 = some err ∧ (taskArguments o [a]).2.issue = o.issue) := by
  rcases ha with ⟨h1, -, h3⟩ | ⟨h1, h2, h3⟩
  · subst h3
    rw [taskArguments_no_sharp o num h1]
    constructor
    · intro v hv
      rw [hv]
      simp [h1]
    · intro err he
      rw [he]
      simp
  · subst h3
    rw [taskArguments_one_sharp o spec num h1 h2]
    constructor
    · intro v hv
      rw [hv]
      simp
    · intro err he
      rw [he]
      simp

/-! ## Claims C5 to C9: `taskArguments` -/

/-- C5. From options whose `repo` is empty and whose `issue` is 0, a single
argument whose numeric part `num` is accepted by `strconv.Atoi` with value `v`
is accepted: without a `#` the repository stays empty, with one `#` it is the
text left of the `#`, taken as it is; the issue number is `v`.  So `42` gives
`("", 42)` and `acme/widgets#7` gives `("acme/widgets", 7)`. -/
theorem taskArguments_accepts (t a spec num : Str) (v : Int)
    (ha : IssueArgument a spec num) (hv : strconvAtoi num = Except.ok v) :
    taskArguments { title := t, repo := [], issue := 0 } [a]
        = (none, { title := t, repo := spec, issue := v })
      ∧ taskArguments DraftOpts.zero ["42".toList]
        = (none, { title := [], repo := [], issue := 42 })
      ∧ taskArguments DraftOpts.zero ["acme/widgets#7".toList]
        = (none, { title := [], repo := "acme/widgets".toList, issue := 7 }) := by
  refine ⟨?_, by decide, by decide⟩
  rcases ha with ⟨h1, h2, h3⟩ | ⟨h1, h2, h3⟩
  · subst h2 h3
    rw [taskArguments_no_sharp _ _ h1, hv]
  · subst h3
    rw [taskArguments_one_sharp _ _ _ h1 h2, hv]

theorem taskArguments_accepts_witness :
    IssueArgument "https://github.com/cybozu/csa#+12".toList
        "https://github.com/cybozu/csa".toList "+12".toList
      ∧ strconvAtoi "+12".toList = Except.ok 12
      ∧ taskArguments { title := "t".toList, repo := [], issue := 0 }
          ["https://github.com/cybozu/csa#+12".toList]
        = (none, { title := "t".toList, repo := "https://github.com/cybozu/csa".toList,
                   issue := 12 }) :=
  ⟨by decide, rfl,
    (taskArguments_accepts "t".toList "https://github.com/cybozu/csa#+12".toList
      "https://github.com/cybozu/csa".toList "+12".toList 12 (by decide) rfl).1⟩

/-- C6. More than one argument is the error `too many arguments`, whatever the
arguments are; a single argument with more than one `#` is the error
`too many '#' in issue number`, whatever follows the last `#` (`a#b#7`,
`a#b#x`).  In both cases the options are not touched. -/
theorem taskArguments_argument_errors (o : DraftOpts) :
    (∀ args : List Str, 1 < args.length →
        taskArguments o args = (some (errorsNew "too many arguments"), o))
      ∧ (∀ a : Str, 1 < a.count '#' →
        taskArguments o [a] = (some (errorsNew "too many '#' in issue number"), o))
      ∧ taskArguments o ["a#b#7".toList]
          = (some (errorsNew "too many '#' in issue number"), o)
      ∧ taskArguments o ["a#b#x".toList]
          = (some (errorsNew "too many '#' in issue number"), o) := by
  refine ⟨?_, fun a h => taskArguments_many_sharp o a h,
    taskArguments_many_sharp o _ (by decide), taskArguments_many_sharp o _ (by decide)⟩
  intro args h
  match args, h with
  | _ :: _ :: _, _ => simp [taskArguments]

theorem taskArguments_argument_errors_witness :
    1 < ["1".toList, "2".toList].length
      ∧ taskArguments DraftOpts.zero ["1".toList, "2".toList]
          = (some (errorsNew "too many arguments"), DraftOpts.zero)
      ∧ 1 < "cybozu/csa##1".toList.count '#'
      ∧ taskArguments DraftOpts.zero ["cybozu/csa##1".toList]
          = (some (errorsNew "too many '#' in issue number"), DraftOpts.zero) :=
  ⟨by decide, (taskArguments_argument_errors DraftOpts.zero).1 _ (by decide), by decide,
    (taskArguments_argument_errors DraftOpts.zero).2.1 _ (by decide)⟩

/-- C7. A single argument with at most one `#` is accepted exactly when
`strconv.Atoi` accepts its numeric part.  When it does not, the error returned
is the one `strconv.Atoi` made, a `*NumError` and so neither of the two
argument errors, and `issue` keeps its value.  Examples: `abc`,
`acme/widgets#` and `#`. -/
theorem taskArguments_numeric_part (o : DraftOpts) (a spec num : Str)
    (ha : IssueArgument a spec num) :
    ((taskArguments o [a]).1 = none ↔ ∃ v, strconvAtoi num = Except.ok v)
      ∧ (∀ err, strconvAtoi num = Except.error err →
          (taskArguments o [a]).1 = some err
            ∧ err ≠ errorsNew "too many arguments"
            ∧ err ≠ errorsNew "too many '#' in issue number"
            ∧ (taskArguments o [a]).2.issue = o.issue)
      ∧ (taskArguments o ["abc".toList]).1
          = some (GoError.numError "Atoi" "abc".toList ConvErr.ErrSyntax)
      ∧ (taskArguments o ["acme/widgets#".toList]).1
          = some (GoError.numError "Atoi" [] ConvErr.ErrSyntax)
      ∧ (taskArguments o ["#".toList]).1
          = some (GoError.numError "Atoi" [] ConvErr.ErrSyntax) := by
  have key := taskArguments_of_issueArgument o a spec num ha
  refine ⟨?_, ?_, ?_, ?_, ?_⟩
  · constructor
    · intro h
      cases hp : strconvAtoi num with
      | ok v => exact ⟨v, rfl⟩
      | error err =>
        have := (key.2 err hp).1
        rw [h] at this
        cases this
    · rintro ⟨v, hv⟩
      exact (key.1 v hv).1
  · intro err he
    obtain ⟨e, rfl⟩ := strconvAtoi_error num err he
    exact ⟨(key.2 _ he).1, by simp [errorsNew], by simp [errorsNew], (key.2 _ he).2⟩
  · exact ((taskArguments_of_issueArgument o "abc".toList [] "abc".toList
      (by decide)).2 _ rfl).1
  · exact ((taskArguments_of_issueArgument o "acme/widgets#".toList "acme/widgets".toList []
      (by decide)).2 _ rfl).1
  · exact ((taskArguments_of_issueArgument o "#".toList [] []
      (by decide)).2 _ rfl).1

theorem taskArguments_numeric_part_witness :
    IssueArgument "acme/widgets#1_000".toList "acme/widgets".toList "1_000".toList
      ∧ strconvAtoi "1_000".toList
          = Except.error (GoError.numError "Atoi" "1_000".toList ConvErr.ErrSyntax)
      ∧ (taskArguments DraftOpts.zero ["acme/widgets#1_000".toList]).1
          = some (GoError.numError "Atoi" "1_000".toList ConvErr.ErrSyntax) :=
  ⟨by decide, rfl,
    ((taskArguments_numeric_part DraftOpts.zero "acme/widgets#1_000".toList
      "acme/widgets".toList "1_000".toList (by decide)).2.1 _ rfl).1⟩

/-- C8. With no argument `taskArguments` returns `nil` and leaves the options
as they are; from the zero value of `draftOpts` that is an empty `repo` and
`issue = 0`. -/
theorem taskArguments_no_argument (o : DraftOpts) :
    taskArguments o [] = (none, o)
      ∧ taskArguments DraftOpts.zero [] = (none, { title := [], repo := [], issue := 0 }) :=
  ⟨rfl, rfl⟩

/-- C9, as stated, fails: the single arguments `0` and `-5` are accepted, and
leave an issue number that is not positive. -/
theorem taskArguments_accepts_nonpositive :
    ((taskArguments DraftOpts.zero ["0".toList]).1 = none
        ∧ ¬ 0 < (taskArguments DraftOpts.zero ["0".toList]).2.issue)
      ∧ ((taskArguments DraftOpts.zero ["-5".toList]).1 = none
        ∧ ¬ 0 < (taskArguments DraftOpts.zero ["-5".toList]).2.issue) := by
  decide

/-- C9, amended. For a single argument that `taskArguments` accepts, the issue
number is the value `strconv.Atoi` gives for the numeric part of the argument:
an integer from `-2^63` to `2^63 - 1`, of either sign or zero. -/
theorem taskArguments_issue_value (o : DraftOpts) (a : Str)
    (h : (taskArguments o [a]).1 = none) :
    ∃ spec num, IssueArgument a spec num
      ∧ strconvAtoi num = Except.ok (taskArguments o [a]).2.issue
      ∧ -(2 ^ 63) ≤ (taskArguments o [a]).2.issue
      ∧ (taskArguments o [a]).2.issue < 2 ^ 63 := by
  have hcount : a.count '#' ≤ 1 := by
    by_contra hc
    rw [taskArguments_many_sharp o a (by omega)] at h
    cases h
  obtain ⟨spec, num, ha⟩ := (count_le_one_iff_issueArgument a).1 hcount
  have key := taskArguments_of_issueArgument o a spec num ha
  cases hp : strconvAtoi num with
  | error err =>
    rw [(key.2 err hp).1] at h
    cases h
  | ok v =>
    have hv := (key.1 v hp).2.1
    have hr := strconvAtoi_range num v hp
    exact ⟨spec, num, ha, by rw [hv]; exact hp, by rw [hv]; exact hr.1, by rw [hv]; exact hr.2⟩

theorem taskArguments_issue_value_witness :
    (taskArguments DraftOpts.zero ["cybozu/csa#-5".toList]).1 = none
      ∧ ∃ spec num, IssueArgument "cybozu/csa#-5".toList spec num
        ∧ strconvAtoi num
            = Except.ok (taskArguments DraftOpts.zero ["cybozu/csa#-5".toList]).2.issue
        ∧ -(2 ^ 63) ≤ (taskArguments DraftOpts.zero ["cybozu/csa#-5".toList]).2.issue
        ∧ (taskArguments DraftOpts.zero ["cybozu/csa#-5".toList]).2.issue < 2 ^ 63 :=
  ⟨by decide, taskArguments_issue_value DraftOpts.zero "cybozu/csa#-5".toList (by decide)⟩

/-! ## Bytes of the issue link -/

theorem digitChar_mem (d : Nat) : Nat.digitChar d ∈ "0123456789abcdef*".toList := by
  by_cases h : d < 16
  · interval_cases d <;> decide
  · unfold Nat.digitChar
    iterate 16 rw [if_neg (by omega)]
    decide

theorem mem_toDigitsCore (b : Nat) : ∀ (fuel n : Nat) (ds : List Char) (c : Char),
    c ∈ Nat.toDigitsCore b fuel n ds → c ∈ ds ∨ c ∈ "0123456789abcdef*".toList := by
  intro fuel
  induction fuel with
  | zero =>
    intro n ds c h
    exact Or.inl (by simpa [Nat.toDigitsCore] using h)
  | succ fuel ih =>
    intro n ds c h
    unfold Nat.toDigitsCore at h
    simp only at h
    split at h
    · rcases List.mem_cons.1 h with h | h
      · exact Or.inr (h ▸ digitChar_mem _)
      · exact Or.inl h
    · rcases ih _ _ c h with h | h
      · rcases List.mem_cons.1 h with h | h
        · exact Or.inr (h ▸ digitChar_mem _)
        · exact Or.inl h
      · exact Or.inr h

/-- The text of a number is made of digits and, at most, a minus sign. -/
theorem mem_formatInt (i : Int) (c : Char) (h : c ∈ formatInt i) :
    c ∈ "-0123456789abcdef*".toList := by
  have hsub : ∀ c, c ∈ "0123456789abcdef*".toList → c ∈ "-0123456789abcdef*".toList :=
    fun c hc => List.mem_cons_of_mem _ hc
  cases i with
  | ofNat k =>
    rcases mem_toDigitsCore 10 _ _ _ c h with h | h
    · cases h
    · exact hsub c h
  | negSucc k =>
    rcases List.mem_cons.1 h with h | h
    · rw [h]; decide
    · rcases mem_toDigitsCore 10 _ _ _ c h with h | h
      · cases h
      · exact hsub c h

/-- An issue link is one line when owner and name are. -/
theorem newline_not_mem_issueLink (o n : Str) (i : Int) (ho : '\n' ∉ o) (hn : '\n' ∉ n) :
    '\n' ∉ issueLink o n i := by
  have hf : '\n' ∉ formatInt i := fun h => absurd (mem_formatInt i _ h) (by decide)
  rw [issueLink_eq]
  simp [ho, hn, hf]

/-! ## Occurrences of a text around a byte it does not have -/

theorem prefix_of_prefix_append_cons (c : Char) : ∀ (sub u y : Str),
    c ∉ sub → sub <+: u ++ c :: y → sub <+: u := by
  intro sub
  induction sub with
  | nil => intro u y _ _; exact List.nil_prefix
  | cons s sub ih =>
    intro u y hc h
    have hs : s ≠ c := fun e => hc (by simp [e])
    have hsub : c ∉ sub := fun e => hc (List.mem_cons_of_mem _ e)
    cases u with
    | nil =>
      rw [List.nil_append, List.cons_prefix_cons] at h
      exact absurd h.1 hs
    | cons a u =>
      rw [List.cons_append, List.cons_prefix_cons] at h
      rw [List.cons_prefix_cons]
      exact ⟨h.1, ih u y hsub h.2⟩

/-- An occurrence of `sub` in `x ++ c :: y`, when the byte `c` is not in `sub`,
starts after `c` or lies within `x`. -/
theorem prefix_drop_append_cons (c : Char) (sub x y : Str) (j : Nat)
    (hc : c ∉ sub) (hj : j ≤ x.length) (h : sub <+: (x ++ c :: y).drop j) :
    sub <+: x.drop j := by
  rw [List.drop_append_of_le_length hj] at h
  exact prefix_of_prefix_append_cons c sub _ y hc h

theorem infix_append_cons (c : Char) (sub x y : Str) (hc : c ∉ sub)
    (h : sub <:+: x ++ c :: y) : sub <:+: x ∨ sub <:+: y := by
  obtain ⟨j, -, hj⟩ := (infix_iff_prefix_drop _ _).1 h
  by_cases hle : j ≤ x.length
  · exact Or.inl (List.IsInfix.trans (prefix_drop_append_cons c sub x y j hc hle hj).isInfix
      (List.drop_suffix j x).isInfix)
  · right
    have hd : (x ++ c :: y).drop j = y.drop (j - x.length - 1) := by
      obtain ⟨d, hd⟩ : ∃ d, j - x.length = d + 1 := ⟨j - x.length - 1, by omega⟩
      rw [List.drop_append_eq_append_drop, List.drop_of_length_le (by omega), List.nil_append,
        hd, List.drop_succ_cons, Nat.add_sub_cancel]
    rw [hd] at hj
    exact List.IsInfix.trans hj.isInfix (List.drop_suffix _ y).isInfix

/-- The text `Signed-off-by:` occurs in an issue link only inside the owner or
inside the name. -/
theorem signedOffBy_infix_issueLink (o n : Str) (i : Int)
    (h : signedOffBy <:+: issueLink o n i) : signedOffBy <:+: o ∨ signedOffBy <:+: n := by
  rw [issueLink_eq] at h
  have e : 'i' :: 's' :: 's' :: 'u' :: 'e' :: ':' :: ' ' :: (o ++ '/' :: (n ++ '#' :: formatInt i))
      = ['i', 's', 's', 'u', 'e', ':'] ++ ' ' :: (o ++ '/' :: (n ++ '#' :: formatInt i)) := rfl
  rw [e] at h
  rcases infix_append_cons ' ' _ _ _ (by decide) h with h | h
  · exact absurd h (by decide)
  · rcases infix_append_cons '/' _ _ _ (by decide) h with h | h
    · exact Or.inl h
    · rcases infix_append_cons '#' _ _ _ (by decide) h with h | h
      · exact Or.inr h
      · have hS : 'S' ∈ formatInt i := h.subset (by decide)
        exact absurd (mem_formatInt i _ hS) (by decide)

/-! ## Lines -/

/-- The pieces of `x ++ sep :: y` are the pieces of `x`, then the pieces of `y`. -/
theorem stringsSplit_append_cons (sep : Char) (x y : Str) :
    stringsSplit sep (x ++ sep :: y) = stringsSplit sep x ++ stringsSplit sep y := by
  induction x with
  | nil =>
    simp [stringsSplit]
  | cons c cs ih =>
    by_cases hc : c = sep
    · simp [stringsSplit, hc, ih]
    · cases hs : stringsSplit sep cs with
      | nil => exact absurd hs (stringsSplit_ne_nil sep cs)
      | cons p ps => simp [stringsSplit, hc, ih, hs]

/-- A text `l` of one line, put after `a`, where `a` is empty or ends in a
newline, is line number `count '\n' a` of the whole, whether the whole ends
there or goes on with a newline. -/
theorem line_of_append (a l : Str) (ha : a = [] ∨ ['\n'] <:+ a) (hl : '\n' ∉ l) :
    (stringsSplit '\n' (a ++ l))[a.count '\n']? = some l
      ∧ ∀ t, (stringsSplit '\n' (a ++ l ++ '\n' :: t))[a.count '\n']? = some l := by
  rcases ha with ha | ⟨a0, ha⟩
  · subst ha
    refine ⟨?_, fun t => ?_⟩
    · rw [List.nil_append, stringsSplit_of_not_mem _ _ hl]; rfl
    · rw [List.nil_append, stringsSplit_append_cons, stringsSplit_of_not_mem _ _ hl]; simp
  · subst ha
    have hcount : (a0 ++ ['\n']).count '\n' = (stringsSplit '\n' a0).length := by
      rw [length_stringsSplit, List.count_append]; rfl
    have e1 : a0 ++ ['\n'] ++ l = a0 ++ '\n' :: l := by simp
    have e2 : ∀ t, a0 ++ ['\n'] ++ l ++ '\n' :: t = a0 ++ '\n' :: (l ++ '\n' :: t) := by
      intro t; simp
    refine ⟨?_, fun t => ?_⟩
    · rw [hcount, e1, stringsSplit_append_cons, List.getElem?_append_right (Nat.le_refl _),
        Nat.sub_self, stringsSplit_of_not_mem _ _ hl]
      rfl
    · rw [hcount, e2, stringsSplit_append_cons, List.getElem?_append_right (Nat.le_refl _),
        Nat.sub_self, stringsSplit_append_cons, stringsSplit_of_not_mem _ _ hl]
      simp

/-! ## The message fragment and its newline -/

/-- The fragment before the link, with the newline of draft.go 168-170 when it
is added, is empty or ends in a newline. -/
theorem fragment_ends_line (f : Str) :
    f ++ (if f ≠ [] ∧ ¬ ['\n'] <:+ f then ['\n'] else []) = [] ∨
      ['\n'] <:+ f ++ (if f ≠ [] ∧ ¬ ['\n'] <:+ f then ['\n'] else []) := by
  by_cases h : f ≠ [] ∧ ¬ ['\n'] <:+ f
  · rw [if_pos h]
    exact Or.inr (List.suffix_append _ _)
  · rw [if_neg h, List.append_nil]
    by_cases hf : f = []
    · exact Or.inl hf
    · right
      by_contra hs
      exact h ⟨hf, hs⟩

/-- A text of one line that occurs in fragment, newline and link occurs in the
fragment or in the link. -/
theorem infix_fragment_link (sub f l : Str) (hsub : '\n' ∉ sub)
    (h : sub <:+: f ++ (if f ≠ [] ∧ ¬ ['\n'] <:+ f then ['\n'] else []) ++ l) :
    sub <:+: f ∨ sub <:+: l := by
  by_cases hc : f ≠ [] ∧ ¬ ['\n'] <:+ f
  · rw [if_pos hc, List.append_assoc, List.singleton_append] at h
    exact infix_append_cons '\n' sub f l hsub h
  · rw [if_neg hc, List.append_nil] at h
    by_cases hf : f = []
    · subst hf
      exact Or.inr h
    · have hs : ['\n'] <:+ f := by
        by_contra hs
        exact hc ⟨hf, hs⟩
      obtain ⟨f0, hf0⟩ := hs
      rw [← hf0, List.append_assoc, List.singleton_append] at h
      rcases infix_append_cons '\n' sub f0 l hsub h with h | h
      · left
        rw [← hf0]
        exact h.trans (List.prefix_append _ _).isInfix
      · exact Or.inr h

/-- Before its first occurrence a text does not occur. -/
theorem not_infix_take_of_firstOccurrenceAt (sub s : Str) (k : Nat) (hne : sub ≠ [])
    (hk : FirstOccurrenceAt sub s k) : ¬ sub <:+: s.take k := by
  intro h
  obtain ⟨j, hj, hp⟩ := (infix_iff_prefix_drop _ _).1 h
  have hlen : (s.take k).length = k := by
    rw [List.length_take]; exact Nat.min_eq_left hk.1
  have hjk : j < k := by
    rcases Nat.lt_or_ge j k with h1 | h1
    · exact h1
    · exfalso
      rw [List.drop_of_length_le (by omega)] at hp
      exact hne (List.prefix_nil.1 hp)
  apply hk.2.2 j hjk
  have hs : s.drop j = (s.take k).drop j ++ s.drop k := by
    conv_lhs => rw [← List.take_append_drop k s]
    rw [List.drop_append_of_le_length hj]
  rw [hs]
  exact hp.trans (List.prefix_append _ _)

/-! ## Claim C10: the line of the issue link -/

/-- C10, as stated, fails: the message `issue: o/n#12` contains the link to
issue 1 of `o/n`, so it is returned as it is, and none of its lines is that
link. -/
theorem insertIssueLink_no_link_line :
    '\n' ∉ "o".toList ∧ '\n' ∉ "n".toList
      ∧ insertIssueLink "issue: o/n#12".toList "o".toList "n".toList 1 = "issue: o/n#12".toList
      ∧ issueLink "o".toList "n".toList 1 ∉
          stringsSplit '\n' (insertIssueLink "issue: o/n#12".toList "o".toList "n".toList 1) := by
  decide

/-- C10, amended. Owner and name have no newline.  A message `m` that already
contains the issue link is returned as it is.  When `m` does not contain the
link, some line `j` of the result is the issue link and nothing else; when
moreover `Signed-off-by:` first occurs in `m` at `k`, the result from some
position `p` on is `m[k:]`, and `p` is the first byte of line `j + 1`; it is
the first occurrence of `Signed-off-by:` in the result unless the owner or the
name contains that text. -/
theorem insertIssueLink_link_line (m o n : Str) (i : Int)
    (ho : '\n' ∉ o) (hn : '\n' ∉ n) :
    (issueLink o n i <:+: m → insertIssueLink m o n i = m)
      ∧ (¬ issueLink o n i <:+: m →
        ∃ j, (stringsSplit '\n' (insertIssueLink m o n i))[j]? = some (issueLink o n i)
          ∧ ∀ k, FirstOccurrenceAt signedOffBy m k →
            ∃ p, p ≤ (insertIssueLink m o n i).length
              ∧ (insertIssueLink m o n i).drop p = m.drop k
              ∧ ((insertIssueLink m o n i).take p).count '\n' = j + 1
              ∧ ['\n'] <:+ (insertIssueLink m o n i).take p
              ∧ (¬ signedOffBy <:+: o → ¬ signedOffBy <:+: n →
                  FirstOccurrenceAt signedOffBy (insertIssueLink m o n i) p)) := by
  refine ⟨insertIssueLink_of_contains m o n i, fun hlink => ?_⟩
  have hL : '\n' ∉ issueLink o n i := newline_not_mem_issueLink o n i ho hn
  cases hidx : indexAux signedOffBy m with
  | none =>
    rw [insertIssueLink_of_no_index m o n i hlink hidx]
    refine ⟨_, (line_of_append _ _ (fragment_ends_line m) hL).1, ?_⟩
    intro k hk
    rw [(indexAux_eq_some_iff _ _ _).2 hk] at hidx
    cases hidx
  | some k0 =>
    rw [insertIssueLink_of_index m o n i k0 hlink hidx]
    generalize hA : m.take k0 ++ (if m.take k0 ≠ [] ∧ ¬ ['\n'] <:+ m.take k0 then ['\n'] else [])
      = a
    have hends : a = [] ∨ ['\n'] <:+ a := hA ▸ fragment_ends_line (m.take k0)
    have hout : a ++ issueLink o n i ++ ['\n'] ++ m.drop k0
        = a ++ issueLink o n i ++ '\n' :: m.drop k0 := by simp
    refine ⟨a.count '\n', ?_, ?_⟩
    · rw [hout]
      exact (line_of_append a _ hends hL).2 _
    · intro k hk
      have hkk : k = k0 := by
        rw [(indexAux_eq_some_iff _ _ _).2 hk] at hidx
        injection hidx
      subst hkk
      have hlen : (a ++ issueLink o n i ++ ['\n']).length = (a ++ issueLink o n i).length + 1 :=
        List.length_append _ _
      have htake : (a ++ issueLink o n i ++ ['\n'] ++ m.drop k).take
          ((a ++ issueLink o n i).length + 1) = a ++ issueLink o n i ++ ['\n'] := by
        rw [← hlen, List.take_left']
        rfl
      have hdrop : (a ++ issueLink o n i ++ ['\n'] ++ m.drop k).drop
          ((a ++ issueLink o n i).length + 1) = m.drop k := by
        rw [← hlen, List.drop_left']
        rfl
      have hple : (a ++ issueLink o n i).length + 1
          ≤ (a ++ issueLink o n i ++ ['\n'] ++ m.drop k).length := by
        simp only [List.length_append, List.length_singleton]
        omega
      refine ⟨(a ++ issueLink o n i).length + 1, hple, hdrop, ?_, ?_, ?_⟩
      · rw [htake, List.count_append, List.count_append,
          List.count_eq_zero_of_not_mem hL]
        rfl
      · rw [htake]
        exact List.suffix_append _ _
      · intro hso hsn
        refine ⟨hple, ?_, ?_⟩
        · rw [hdrop]; exact hk.2.1
        · intro j hj hpre
          rw [hout] at hpre
          have hin : signedOffBy <:+: a ++ issueLink o n i :=
            (prefix_drop_append_cons '\n' signedOffBy _ _ j (by decide) (by omega) hpre).isInfix.trans
              (List.drop_suffix _ _).isInfix
          rw [← hA] at hin
          rcases infix_fragment_link signedOffBy _ _ (by decide) hin with h | h
          · exact not_infix_take_of_firstOccurrenceAt _ _ _ signedOffBy_ne_nil hk h
          · rcases signedOffBy_infix_issueLink o n i h with h | h
            · exact hso h
            · exact hsn h

theorem insertIssueLink_link_line_witness :
    '\n' ∉ "cybozu".toList ∧ '\n' ∉ "csa".toList
      ∧ (¬ issueLink "cybozu".toList "csa".toList 1 <:+: "fix Signed-off-by: foo".toList)
      ∧ ∃ j, (stringsSplit '\n'
            (insertIssueLink "fix Signed-off-by: foo".toList "cybozu".toList "csa".toList 1))[j]?
          = some (issueLink "cybozu".toList "csa".toList 1)
        ∧ ∀ k, FirstOccurrenceAt signedOffBy "fix Signed-off-by: foo".toList k →
          ∃ p, p ≤ (insertIssueLink "fix Signed-off-by: foo".toList "cybozu".toList
                "csa".toList 1).length
            ∧ (insertIssueLink "fix Signed-off-by: foo".toList "cybozu".toList
                "csa".toList 1).drop p = "fix Signed-off-by: foo".toList.drop k
            ∧ ((insertIssueLink "fix Signed-off-by: foo".toList "cybozu".toList
                "csa".toList 1).take p).count '\n' = j + 1
            ∧ ['\n'] <:+ (insertIssueLink "fix Signed-off-by: foo".toList "cybozu".toList
                "csa".toList 1).take p
            ∧ (¬ signedOffBy <:+: "cybozu".toList → ¬ signedOffBy <:+: "csa".toList →
                FirstOccurrenceAt signedOffBy (insertIssueLink "fix Signed-off-by: foo".toList
                  "cybozu".toList "csa".toList 1) p) :=
  ⟨by decide, by decide, by decide,
    (insertIssueLink_link_line "fix Signed-off-by: foo".toList "cybozu".toList "csa".toList 1
      (by decide) (by decide)).2 (by decide)⟩

/-- An owner that contains `Signed-off-by:` puts that text on the line of the
issue link itself, before the one of the message. -/
theorem insertIssueLink_owner_signedOffBy :
    insertIssueLink "Signed-off-by: foo".toList "Signed-off-by:".toList "n".toList 1
        = "issue: Signed-off-by:/n#1\nSigned-off-by: foo".toList
      ∧ FirstOccurrenceAt signedOffBy
          (insertIssueLink "Signed-off-by: foo".toList "Signed-off-by:".toList "n".toList 1) 7 := by
  decide

/-! ## Every run is one of the listed paths -/

theorem call_eq {W α : Type} (op : W → α × W) (ev : α → Event) (s : RunState W) :
    call op ev s
      = ((op s.world).1, { world := (op s.world).2, trace := s.trace ++ [ev (op s.world).1] }) := by
  unfold call
  rfl

theorem askRun_askYorN {W : Type} (c : Collaborators W) (query : Str) (s : RunState W) :
    ∃ evs, (askYorN c query s).2.trace = s.trace ++ evs
      ∧ AskRun query (askYorN c query s).1 evs := by
  unfold askYorN
  rw [call_eq]
  cases (c.Ask (query ++ " [y/N]".toList) s.world).1 with
  | error err => exact ⟨_, rfl, AskRun.askFails err⟩
  | ok ans => exact ⟨_, rfl, AskRun.answered ans _ rfl⟩

theorem uncommittedRun_confirmUncommitted {W : Type} (c : Collaborators W) (s : RunState W) :
    ∃ evs, (confirmUncommitted c s).2.trace = s.trace ++ evs
      ∧ UncommittedRun (confirmUncommitted c s).1 evs := by
  unfold confirmUncommitted
  rw [call_eq]
  cases (c.checkUncommittedFiles s.world).1 with
  | error err => exact ⟨_, rfl, UncommittedRun.checkFails err⟩
  | ok ok =>
    cases ok with
    | true => exact ⟨_, rfl, UncommittedRun.clean⟩
    | false =>
      obtain ⟨evs, ht, hr⟩ := askRun_askYorN c "Continue?".toList
        (fmtPrint "WARNING: you have uncommitted files.\n".toList
          { world := (c.checkUncommittedFiles s.world).2,
            trace := s.trace ++ [Event.checkUncommittedFiles (Except.ok false)] })
      refine ⟨_, ?_, UncommittedRun.dirty _ evs hr⟩
      simp only [Bool.false_eq_true, if_false]
      rw [ht]
      simp [fmtPrint]

theorem issueRun_confirmIssue {W : Type} (c : Collaborators W) (repo : GitHubRepository)
    (issue : Int) (s : RunState W) :
    ∃ evs, (confirmIssue c repo issue s).2.trace = s.trace ++ evs
      ∧ IssueRun repo issue (confirmIssue c repo issue s).1 evs := by
  unfold confirmIssue
  rw [call_eq]
  cases (c.GetIssueTitle repo issue s.world).1 with
  | error err => exact ⟨_, rfl, IssueRun.titleFails err⟩
  | ok title =>
    obtain ⟨evs, ht, hr⟩ := askRun_askYorN c "Is this ok?".toList
      (fmtPrint (repo.Owner ++ "/".toList ++ repo.Name ++ "#".toList ++ formatInt issue
          ++ ": ".toList ++ title ++ "\n".toList)
        { world := (c.GetIssueTitle repo issue s.world).2,
          trace := s.trace ++ [Event.GetIssueTitle repo issue (Except.ok title)] })
    refine ⟨_, ?_, IssueRun.asked title _ evs hr⟩
    simp only []
    rw [ht]
    simp [fmtPrint]

theorem repoRun_getRepo {W : Type} (c : Collaborators W) (repo : Str) (s : RunState W) :
    ∃ evs, (getRepo c repo s).2.trace = s.trace ++ evs ∧ RepoRun repo (getRepo c repo s).1 evs := by
  unfold getRepo
  rw [call_eq]
  cases (c.ExtractGitHubRepositoryName repo s.world).1 with
  | error err => exact ⟨_, rfl, RepoRun.extractFails err⟩
  | ok names =>
    obtain ⟨owner, name⟩ := names
    simp only []
    rw [call_eq]
    exact ⟨_, by simp, RepoRun.looked owner name _⟩

theorem currentRepoRun_getCurrentRepo {W : Type} (c : Collaborators W) (s : RunState W) :
    ∃ evs, (getCurrentRepo c s).2.trace = s.trace ++ evs
      ∧ CurrentRepoRun (getCurrentRepo c s).1 evs := by
  unfold getCurrentRepo
  rw [call_eq]
  cases (c.originURL s.world).1 with
  | error err => exact ⟨_, rfl, CurrentRepoRun.originFails err⟩
  | ok origin =>
    obtain ⟨evs, ht, hr⟩ := repoRun_getRepo c origin
      { world := (c.originURL s.world).2, trace := s.trace ++ [Event.originURL (Except.ok origin)] }
    refine ⟨_, ?_, CurrentRepoRun.resolved origin _ evs hr⟩
    simp only []
    rw [ht]
    simp

theorem createRun_createPR {W : Type} (c : Collaborators W) (repo : GitHubRepository)
    (defBranch branch title body : Str) (draft : Bool) (s : RunState W) :
    ∃ evs, (createPR c repo defBranch branch title body draft s).2.trace = s.trace ++ evs
      ∧ CreateRun repo defBranch branch title body draft
          (createPR c repo defBranch branch title body draft s).1 evs := by
  unfold createPR
  rw [call_eq]
  cases (c.CreatePullRequest repo.ID defBranch branch title body draft s.world).1 with
  | error err => exact ⟨_, rfl, CreateRun.createFails err⟩
  | ok pr =>
    simp only []
    rw [call_eq]
    generalize hs1 : fmtPrint ("\nCreated a pull request: ".toList ++ pr.Permalink ++ "\n".toList)
      { world := (c.CreatePullRequest repo.ID defBranch branch title body draft s.world).2,
        trace := s.trace ++ [Event.CreatePullRequest repo.ID defBranch branch title body draft
          (Except.ok pr)] } = s1
    have ht1 : s1.trace = s.trace ++
        [Event.CreatePullRequest repo.ID defBranch branch title body draft (Except.ok pr),
         Event.stdout ("\nCreated a pull request: ".toList ++ pr.Permalink ++ "\n".toList)] := by
      rw [← hs1]; simp [fmtPrint]
    cases (c.GetViewer s1.world).1 with
    | error err =>
      exact ⟨_, by simp only [ht1, List.append_assoc]; rfl, CreateRun.viewerFails pr err⟩
    | ok assignee =>
      simp only []
      rw [call_eq]
      cases (c.AddAssigneeToPullRequest assignee.ID pr.ID (c.GetViewer s1.world).2).1 with
      | some err =>
        exact ⟨_, by simp only [ht1, List.append_assoc]; rfl, CreateRun.assignFails pr assignee err⟩
      | none =>
        exact ⟨_, by simp only [ht1, List.append_assoc]; rfl, CreateRun.assigned pr assignee⟩

theorem pushRun_runDraftCmdPush {W : Type} (c : Collaborators W) (o : DraftOpts) (draft : Bool)
    (branch defBranch firstSummary firstBody : Str) (curRepo issueRepo : GitHubRepository)
    (s : RunState W) :
    ∃ evs,
      (runDraftCmdPush c o draft branch defBranch firstSummary firstBody curRepo issueRepo s).2.trace
          = s.trace ++ evs
        ∧ PushRun o draft branch defBranch firstSummary firstBody curRepo issueRepo
            (runDraftCmdPush c o draft branch defBranch firstSummary firstBody curRepo issueRepo s).1
            evs := by
  unfold runDraftCmdPush
  rw [call_eq]
  generalize hargs : ["push".toList, "-u".toList, "origin".toList, branch ++ ":".toList ++ branch]
    = args
  cases (c.git args s.world).1 with
  | some err => exact ⟨_, rfl, hargs ▸ PushRun.pushFails err⟩
  | none =>
    simp only []
    generalize hs1 : RunState.mk (c.git args s.world).2 (s.trace ++ [Event.git args none]) = s1
    have ht1 : s1.trace = s.trace ++ [Event.git args none] := by rw [← hs1]
    obtain ⟨evs, ht, hr⟩ := createRun_createPR c curRepo defBranch branch
      (if o.title = [] then firstSummary else o.title)
      (if o.issue ≠ 0 then insertIssueLink firstBody issueRepo.Owner issueRepo.Name o.issue
        else firstBody) draft s1
    generalize createPR c curRepo defBranch branch
      (if o.title = [] then firstSummary else o.title)
      (if o.issue ≠ 0 then insertIssueLink firstBody issueRepo.Owner issueRepo.Name o.issue
        else firstBody) draft s1 = res at ht hr ⊢
    obtain ⟨r, s2⟩ := res
    simp only [] at ht hr
    have hp := @PushRun.pushed o draft branch defBranch firstSummary firstBody curRepo issueRepo
      r evs hr
    rw [hargs] at hp
    cases r with
    | error err => exact ⟨_, by simp only [ht, ht1, List.append_assoc]; rfl, hp⟩
    | ok pr => exact ⟨_, by simp only [ht, ht1, List.append_assoc]; rfl, hp⟩

/-- Every run of `runDraftCmd` is one of the paths of `DraftRun`. -/
theorem draftRun_runDraftCmd {W : Type} (c : Collaborators W) (o : DraftOpts) (draft : Bool)
    (s : RunState W) :
    ∃ evs, (runDraftCmd c o draft s).2.trace = s.trace ++ evs
      ∧ DraftRun o draft (runDraftCmd c o draft s).1 evs := by
  unfold runDraftCmd
  rw [call_eq]
  cases (c.currentBranch s.world).1 with
  | error err => exact ⟨_, rfl, DraftRun.currentBranchFails err⟩
  | ok branch =>
    simp only []
    rw [call_eq]
    cases (c.defaultBranch (c.currentBranch s.world).2).1 with
    | error err => exact ⟨_, by simp, DraftRun.defaultBranchFails branch err⟩
    | ok defBranch =>
      simp only []
      by_cases hb : branch = defBranch
      · subst hb
        rw [if_pos rfl]
        exact ⟨_, by simp, DraftRun.prohibited branch⟩
      · rw [if_neg hb, call_eq]
        cases (c.firstUnmerged defBranch (c.defaultBranch (c.currentBranch s.world).2).2).1 with
        | error err => exact ⟨_, by simp, DraftRun.firstUnmergedFails branch defBranch hb err⟩
        | ok commit =>
          obtain ⟨hash, firstSummary, firstBody⟩ := commit
          simp only []
          generalize hs3 : RunState.mk
            (c.firstUnmerged defBranch (c.defaultBranch (c.currentBranch s.world).2).2).2
            (s.trace ++ [Event.currentBranch (Except.ok branch)]
              ++ [Event.defaultBranch (Except.ok defBranch)]
              ++ [Event.firstUnmerged defBranch (Except.ok (hash, firstSummary, firstBody))]) = s3
          have ht3 : s3.trace = s.trace ++ [Event.currentBranch (Except.ok branch),
              Event.defaultBranch (Except.ok defBranch),
              Event.firstUnmerged defBranch (Except.ok (hash, firstSummary, firstBody))] := by
            rw [← hs3]; simp
          obtain ⟨evsU, htU, hU⟩ := uncommittedRun_confirmUncommitted c s3
          generalize confirmUncommitted c s3 = resU at htU hU ⊢
          obtain ⟨rU, sU⟩ := resU
          simp only [] at htU hU ⊢
          cases rU with
          | error err =>
            exact ⟨_, by rw [htU, ht3]; simp,
              DraftRun.uncommittedFails branch defBranch hb hash firstSummary firstBody err evsU hU⟩
          | ok ok =>
            cases ok with
            | false =>
              simp only [Bool.not_false, if_true]
              exact ⟨_, by rw [htU, ht3]; simp,
                DraftRun.uncommittedDeclined branch defBranch hb hash firstSummary firstBody evsU hU⟩
            | true =>
              simp only [Bool.not_true, Bool.false_eq_true, if_false]
              suffices hG : ∃ evsG, (match getCurrentRepo c sU with
                  | (Except.error err, s) => (some err, s)
                  | (Except.ok curRepo, s) =>
                    match getRepo c (if o.repo ≠ [] then o.repo else defaultRepository) s with
                    | (Except.error err, s) => (some err, s)
                    | (Except.ok issueRepo, s) =>
                      if o.issue ≠ 0 then
                        match confirmIssue c issueRepo o.issue s with
                        | (Except.error err, s) => (some err, s)
                        | (Except.ok ok, s) =>
                          if (!ok) = true then (none, s)
                          else runDraftCmdPush c o draft branch defBranch firstSummary firstBody
                            curRepo issueRepo s
                      else runDraftCmdPush c o draft branch defBranch firstSummary firstBody
                        curRepo issueRepo s).2.trace = sU.trace ++ evsG
                  ∧ GatedRun o draft branch defBranch firstSummary firstBody
                    (match getCurrentRepo c sU with
                    | (Except.error err, s) => (some err, s)
                    | (Except.ok curRepo, s) =>
                      match getRepo c (if o.repo ≠ [] then o.repo else defaultRepository) s with
                      | (Except.error err, s) => (some err, s)
                      | (Except.ok issueRepo, s) =>
                        if o.issue ≠ 0 then
                          match confirmIssue c issueRepo o.issue s with
                          | (Except.error err, s) => (some err, s)
                          | (Except.ok ok, s) =>
                            if (!ok) = true then (none, s)
                            else runDraftCmdPush c o draft branch defBranch firstSummary firstBody
                              curRepo issueRepo s
                        else runDraftCmdPush c o draft branch defBranch firstSummary firstBody
                          curRepo issueRepo s).1 evsG by
                obtain ⟨evsG, htG, hG⟩ := hG
                exact ⟨_, by rw [htG, htU, ht3]; simp,
                  DraftRun.gated branch defBranch hb hash firstSummary firstBody evsU hU _ evsG hG⟩
              obtain ⟨evsC, htC, hC⟩ := currentRepoRun_getCurrentRepo c sU
              generalize getCurrentRepo c sU = resC at htC hC ⊢
              obtain ⟨rC, sC⟩ := resC
              simp only [] at htC hC ⊢
              cases rC with
              | error err => exact ⟨_, htC, GatedRun.currentRepoFails err evsC hC⟩
              | ok curRepo =>
                simp only []
                obtain ⟨evsR, htR, hR⟩ := repoRun_getRepo c
                  (if o.repo ≠ [] then o.repo else defaultRepository) sC
                generalize getRepo c (if o.repo ≠ [] then o.repo else defaultRepository) sC
                  = resR at htR hR ⊢
                obtain ⟨rR, sR⟩ := resR
                simp only [] at htR hR ⊢
                cases rR with
                | error err =>
                  exact ⟨_, by rw [htR, htC]; simp,
                    GatedRun.issueRepoFails curRepo evsC hC err evsR hR⟩
                | ok issueRepo =>
                  simp only []
                  by_cases hi : o.issue ≠ 0
                  · rw [if_pos hi]
                    obtain ⟨evsI, htI, hI⟩ := issueRun_confirmIssue c issueRepo o.issue sR
                    generalize confirmIssue c issueRepo o.issue sR = resI at htI hI ⊢
                    obtain ⟨rI, sI⟩ := resI
                    simp only [] at htI hI ⊢
                    cases rI with
                    | error err =>
                      exact ⟨_, by rw [htI, htR, htC]; simp,
                        GatedRun.issueFails curRepo evsC hC issueRepo evsR hR hi err evsI hI⟩
                    | ok ok =>
                      cases ok with
                      | false =>
                        simp only [Bool.not_false, if_true]
                        exact ⟨_, by rw [htI, htR, htC]; simp,
                          GatedRun.issueDeclined curRepo evsC hC issueRepo evsR hR hi evsI hI⟩
                      | true =>
                        simp only [Bool.not_true, Bool.false_eq_true, if_false]
                        obtain ⟨evsP, htP, hP⟩ := pushRun_runDraftCmdPush c o draft branch
                          defBranch firstSummary firstBody curRepo issueRepo sI
                        exact ⟨_, by rw [htP, htI, htR, htC]; simp,
                          GatedRun.issueApproved curRepo evsC hC issueRepo evsR hR hi evsI hI
                            _ evsP hP⟩
                  · rw [if_neg hi]
                    obtain ⟨evsP, htP, hP⟩ := pushRun_runDraftCmdPush c o draft branch
                      defBranch firstSummary firstBody curRepo issueRepo sR
                    exact ⟨_, by rw [htP, htR, htC]; simp,
                      GatedRun.noIssue curRepo evsC hC issueRepo evsR hR (by simpa using hi)
                        _ evsP hP⟩

/-- The result and the events of a run from an empty record are a path of
`DraftRun`. -/
theorem draftRun_runFrom {W : Type} (c : Collaborators W) (o : DraftOpts) (draft : Bool) (w : W) :
    DraftRun o draft (runFrom c o draft w).1 (runFrom c o draft w).2 := by
  obtain ⟨evs, ht, h⟩ := draftRun_runDraftCmd c o draft { world := w, trace := [] }
  have : (runFrom c o draft w).2 = evs := by
    simp only [runFrom]; rw [ht]; rfl
  rw [this]
  exact h

/-! ## Properties of all paths -/

theorem failsLast_of_draftRun (o : DraftOpts) (draft : Bool) (r : Option GoError)
    (t : List Event) (h : DraftRun o draft r t) : FailsLast r t := by
  cases h
  all_goals
    repeat' first
      | cases ‹UncommittedRun _ _›
      | cases ‹GatedRun _ _ _ _ _ _ _ _›
      | cases ‹CurrentRepoRun _ _›
      | cases ‹RepoRun _ _ _›
      | cases ‹IssueRun _ _ _ _›
      | cases ‹AskRun _ _ _›
      | cases ‹PushRun _ _ _ _ _ _ _ _ _ _›
      | cases ‹CreateRun _ _ _ _ _ _ _ _›
  all_goals simp [FailsLast, Event.failure, exceptError]

theorem failsLast_append (r : Option GoError) : ∀ (pre t : List Event) (e : Event)
    (post : List Event) (err : GoError),
    FailsLast r t → t = pre ++ e :: post → e.failure = some err → post = [] ∧ r = some err := by
  intro pre
  induction pre with
  | nil =>
    intro t e post err h ht he
    subst ht
    simp only [List.nil_append, FailsLast, he] at h
    exact h
  | cons a pre ih =>
    intro t e post err h ht he
    subst ht
    simp only [List.cons_append, FailsLast] at h
    cases ha : a.failure with
    | none =>
      rw [ha] at h
      exact ih _ e post err h rfl he
    | some err' =>
      rw [ha] at h
      exact absurd h.1 (by simp)

/-! ## Claim C11: `askYorN` -/

/-- C11, as stated, fails: the answer `Yes` equals `yes` when case is ignored,
and `askYorN` returns false for it. -/
theorem askYorN_mixed_case :
    equalFold "Yes".toList "yes".toList = true
      ∧ (askYorN scripted "Continue?".toList
          { world := { branch := "topic".toList, defBranch := "main".toList, clean := false,
                       answers := ["Yes".toList], pushError := none },
            trace := [] }).1 = Except.ok false := by
  decide

/-- C11, amended. When the prompt returns the answer `ans`, `askYorN` returns
true exactly when `ans` is one of `y`, `Y`, `yes`, `YES`, and false for every
other answer: for `Yes` and `yEs`, for the empty answer and for the default
`N`. -/
theorem askYorN_answer {W : Type} (c : Collaborators W) (query : Str) (s : RunState W)
    (ans : Str) (w' : W) (h : c.Ask (query ++ " [y/N]".toList) s.world = (Except.ok ans, w')) :
    ((askYorN c query s).1 = Except.ok true ↔
        ans = "y".toList ∨ ans = "Y".toList ∨ ans = "yes".toList ∨ ans = "YES".toList)
      ∧ ((askYorN c query s).1 = Except.ok false ↔
        ¬ (ans = "y".toList ∨ ans = "Y".toList ∨ ans = "yes".toList ∨ ans = "YES".toList))
      ∧ answerIsYes "Yes".toList = false ∧ answerIsYes "yEs".toList = false
      ∧ answerIsYes [] = false ∧ answerIsYes "N".toList = false := by
  refine ⟨?_, ?_, by decide, by decide, by decide, by decide⟩
  · unfold askYorN
    rw [call_eq, h]
    by_cases hy : ans = "y".toList ∨ ans = "Y".toList ∨ ans = "yes".toList ∨ ans = "YES".toList
    · simp [answerIsYes, hy]
    · simp [answerIsYes, hy]
  · unfold askYorN
    rw [call_eq, h]
    by_cases hy : ans = "y".toList ∨ ans = "Y".toList ∨ ans = "yes".toList ∨ ans = "YES".toList
    · simp [answerIsYes, hy]
    · simp [answerIsYes, hy]

theorem askYorN_answer_witness :
    scripted.Ask ("Is this ok?".toList ++ " [y/N]".toList)
        { branch := "topic".toList, defBranch := "main".toList, clean := true,
          answers := ["YES".toList, "no".toList], pushError := none }
      = (Except.ok "YES".toList,
          { branch := "topic".toList, defBranch := "main".toList, clean := true,
            answers := ["no".toList], pushError := none })
      ∧ (askYorN scripted "Is this ok?".toList
          { world := { branch := "topic".toList, defBranch := "main".toList, clean := true,
                       answers := ["YES".toList, "no".toList], pushError := none },
            trace := [] }).1 = Except.ok true :=
  ⟨rfl,
    (askYorN_answer scripted "Is this ok?".toList
      { world := { branch := "topic".toList, defBranch := "main".toList, clean := true,
                   answers := ["YES".toList, "no".toList], pushError := none },
        trace := [] } "YES".toList _ rfl).1.2 (by decide)⟩

/-! ## Claims C12 to C14: what a run does not do -/

/-- C12. When `currentBranch` and `defaultBranch` return the same branch, the
run returns the error `direct push to <default> is prohibited` after these two
calls and nothing else: no push, no `CreatePullRequest`, no
`AddAssigneeToPullRequest`; whatever the collaborators are. -/
theorem runDraftCmd_default_branch {W : Type} (c : Collaborators W) (o : DraftOpts)
    (draft : Bool) (w w1 w2 : W) (b : Str)
    (h1 : c.currentBranch w = (Except.ok b, w1)) (h2 : c.defaultBranch w1 = (Except.ok b, w2)) :
    (runFrom c o draft w).1
        = some (errorsNew ("direct push to " ++ String.mk b ++ " is prohibited"))
      ∧ (runFrom c o draft w).2
        = [Event.currentBranch (Except.ok b), Event.defaultBranch (Except.ok b)]
      ∧ ∀ e ∈ (runFrom c o draft w).2,
          e.isPush = false ∧ e.isCreatePullRequest = false ∧ e.isAddAssignee = false := by
  have hrun : runFrom c o draft w
      = (some (errorsNew ("direct push to " ++ String.mk b ++ " is prohibited")),
        [Event.currentBranch (Except.ok b), Event.defaultBranch (Except.ok b)]) := by
    simp [runFrom, runDraftCmd, call_eq, h1, h2]
  rw [hrun]
  simp [Event.isPush, Event.isCreatePullRequest, Event.isAddAssignee]

theorem runDraftCmd_default_branch_witness :
    (runFrom scripted DraftOpts.zero true
        { branch := "main".toList, defBranch := "main".toList, clean := true,
          answers := [], pushError := none }).1
      = some (errorsNew "direct push to main is prohibited") :=
  (runDraftCmd_default_branch scripted DraftOpts.zero true
    { branch := "main".toList, defBranch := "main".toList, clean := true,
      answers := [], pushError := none } _ _ "main".toList rfl rfl).1

set_option maxHeartbeats 4000000 in
/-- C13. A run in which the user answers a question of a gate with anything
but `y`, `Y`, `yes`, `YES` returns no error and has no push, no
`CreatePullRequest` and no `AddAssigneeToPullRequest` among its events; the
question is that of the uncommitted-files gate or that of the issue gate. -/
theorem runDraftCmd_declined {W : Type} (c : Collaborators W) (o : DraftOpts) (draft : Bool)
    (w : W) (query ans : Str)
    (hmem : Event.Ask query (Except.ok ans) ∈ (runFrom c o draft w).2)
    (hno : answerIsYes ans = false) :
    (runFrom c o draft w).1 = none
      ∧ (query = "Continue? [y/N]".toList ∨ query = "Is this ok? [y/N]".toList)
      ∧ ∀ e ∈ (runFrom c o draft w).2,
          e.isPush = false ∧ e.isCreatePullRequest = false ∧ e.isAddAssignee = false := by
  have h := draftRun_runFrom c o draft w
  generalize (runFrom c o draft w).1 = r at h ⊢
  generalize (runFrom c o draft w).2 = t at h hmem ⊢
  cases h
  all_goals
    repeat' first
      | cases ‹UncommittedRun _ _›
      | cases ‹GatedRun _ _ _ _ _ _ _ _›
      | cases ‹CurrentRepoRun _ _›
      | cases ‹RepoRun _ _ _›
      | cases ‹IssueRun _ _ _ _›
      | cases ‹AskRun _ _ _›
      | cases ‹PushRun _ _ _ _ _ _ _ _ _ _›
      | cases ‹CreateRun _ _ _ _ _ _ _ _›
  all_goals
    simp only [List.cons_append, List.nil_append, List.append_assoc, List.mem_cons,
      List.mem_singleton, List.mem_nil_iff, Event.Ask.injEq, Except.ok.injEq, reduceCtorEq,
      false_or, or_false, false_and, and_false] at hmem
  all_goals
    rcases hmem with ⟨rfl, rfl⟩ | ⟨rfl, rfl⟩ <;>
      simp_all [Event.isPush, Event.isCreatePullRequest, Event.isAddAssignee]

theorem runDraftCmd_declined_witness :
    Event.Ask "Continue? [y/N]".toList (Except.ok "n".toList) ∈
        (runFrom scripted DraftOpts.zero true
          { branch := "topic".toList, defBranch := "main".toList, clean := false,
            answers := ["n".toList], pushError := none }).2
      ∧ answerIsYes "n".toList = false
      ∧ (runFrom scripted DraftOpts.zero true
          { branch := "topic".toList, defBranch := "main".toList, clean := false,
            answers := ["n".toList], pushError := none }).1 = none :=
  ⟨by decide, by decide,
    (runDraftCmd_declined scripted DraftOpts.zero true
      { branch := "topic".toList, defBranch := "main".toList, clean := false,
        answers := ["n".toList], pushError := none }
      "Continue? [y/N]".toList "n".toList (by decide) (by decide)).1⟩

/-- C14. In every run a call that returns an error is the last event: no call
before it failed, nothing is called after it, and the run returns that very
error.  So a failed push is not followed by `CreatePullRequest`, and a failed
`CreatePullRequest` is followed neither by `GetViewer` nor by
`AddAssigneeToPullRequest`. -/
theorem runDraftCmd_first_error {W : Type} (c : Collaborators W) (o : DraftOpts) (draft : Bool)
    (w : W) (pre : List Event) (e : Event) (post : List Event) (err : GoError)
    (ht : (runFrom c o draft w).2 = pre ++ e :: post) (he : e.failure = some err) :
    post = [] ∧ (runFrom c o draft w).1 = some err
      ∧ (∀ e' ∈ pre, e'.failure = none)
      ∧ (∀ e' ∈ post, e'.isCreatePullRequest = false ∧ e'.isGetViewer = false
          ∧ e'.isAddAssignee = false) := by
  have hf : FailsLast (runFrom c o draft w).1 (runFrom c o draft w).2 :=
    failsLast_of_draftRun o draft _ _ (draftRun_runFrom c o draft w)
  have h1 := failsLast_append _ pre _ e post err hf ht he
  refine ⟨h1.1, h1.2, ?_, ?_⟩
  · intro e' he'
    cases hfail : e'.failure with
    | none => rfl
    | some err' =>
      obtain ⟨p1, p2, hp⟩ := List.append_of_mem he'
      have ht' : (runFrom c o draft w).2 = p1 ++ e' :: (p2 ++ e :: post) := by
        rw [ht, hp]; simp
      have h2 := failsLast_append _ p1 _ e' _ err' hf ht' hfail
      exact absurd h2.1 (by simp)
  · intro e' he'
    rw [h1.1] at he'
    cases he'

theorem runDraftCmd_first_error_witness :
    (runFrom scripted DraftOpts.zero true
        { branch := "topic".toList, defBranch := "main".toList, clean := true,
          answers := [], pushError := some (errorsNew "rejected") }).2
      = [Event.currentBranch (Except.ok "topic".toList),
         Event.defaultBranch (Except.ok "main".toList),
         Event.firstUnmerged "main".toList
           (Except.ok ("0a1b2c".toList, "Fix it".toList, "Fix it\n\nSigned-off-by: foo".toList)),
         Event.checkUncommittedFiles (Except.ok true),
         Event.originURL (Except.ok "neco".toList),
         Event.ExtractGitHubRepositoryName "neco".toList
           (Except.ok ("cybozu".toList, "neco".toList)),
         Event.GetRepository "cybozu".toList "neco".toList
           (Except.ok { ID := "R_neco".toList, Owner := "cybozu".toList, Name := "neco".toList }),
         Event.ExtractGitHubRepositoryName "cybozu/csa".toList
           (Except.ok ("cybozu".toList, "cybozu/csa".toList)),
         Event.GetRepository "cybozu".toList "cybozu/csa".toList
           (Except.ok { ID := "R_cybozu/csa".toList, Owner := "cybozu".toList,
                        Name := "cybozu/csa".toList })]
        ++ Event.git ["push".toList, "-u".toList, "origin".toList, "topic:topic".toList]
            (some (errorsNew "rejected")) :: []
      ∧ (runFrom scripted DraftOpts.zero true
          { branch := "topic".toList, defBranch := "main".toList, clean := true,
            answers := [], pushError := some (errorsNew "rejected") }).1
        = some (errorsNew "rejected") :=
  ⟨by decide,
    (runDraftCmd_first_error scripted DraftOpts.zero true
      { branch := "topic".toList, defBranch := "main".toList, clean := true,
        answers := [], pushError := some (errorsNew "rejected") }
      [Event.currentBranch (Except.ok "topic".toList),
       Event.defaultBranch (Except.ok "main".toList),
       Event.firstUnmerged "main".toList
         (Except.ok ("0a1b2c".toList, "Fix it".toList, "Fix it\n\nSigned-off-by: foo".toList)),
       Event.checkUncommittedFiles (Except.ok true),
       Event.originURL (Except.ok "neco".toList),
       Event.ExtractGitHubRepositoryName "neco".toList
         (Except.ok ("cybozu".toList, "neco".toList)),
       Event.GetRepository "cybozu".toList "neco".toList
         (Except.ok { ID := "R_neco".toList, Owner := "cybozu".toList, Name := "neco".toList }),
       Event.ExtractGitHubRepositoryName "cybozu/csa".toList
         (Except.ok ("cybozu".toList, "cybozu/csa".toList)),
       Event.GetRepository "cybozu".toList "cybozu/csa".toList
         (Except.ok { ID := "R_cybozu/csa".toList, Owner := "cybozu".toList,
                      Name := "cybozu/csa".toList })]
      (Event.git ["push".toList, "-u".toList, "origin".toList, "topic:topic".toList]
        (some (errorsNew "rejected")))
      [] (errorsNew "rejected") (by decide) rfl).2.1⟩

/-! ## Claims C15 to C17: what a run hands to its collaborators -/

set_option maxHeartbeats 4000000 in
/-- C15. A call of `CreatePullRequest` in a run is the only one, and it comes
after, in this order: the current branch, the default branch, the first
unmerged commit, the origin URL, the repository found for the origin URL, the
repository found for the issue, and a push that did not fail.  Its arguments
are the ID of the repository of the origin URL, the default branch as base,
the current branch as head, the `draft` flag of the caller, as title the
`--title` option when it is not empty and the summary of the commit otherwise,
and as body the body of the commit, passed through `insertIssueLink` with
owner and name of the issue repository when the issue number is not 0. -/
theorem runDraftCmd_createPullRequest {W : Type} (c : Collaborators W) (o : DraftOpts)
    (draft : Bool) (w : W) (repoID base head title body : Str) (d : Bool)
    (r : Except GoError PullRequest)
    (hmem : Event.CreatePullRequest repoID base head title body d r ∈ (runFrom c o draft w).2) :
    ∃ (branch defBranch hash firstSummary firstBody origin owner name : Str)
      (curRepo : GitHubRepository) (owner' name' : Str) (issueRepo : GitHubRepository),
      [Event.currentBranch (Except.ok branch),
       Event.defaultBranch (Except.ok defBranch),
       Event.firstUnmerged defBranch (Except.ok (hash, firstSummary, firstBody)),
       Event.originURL (Except.ok origin),
       Event.ExtractGitHubRepositoryName origin (Except.ok (owner, name)),
       Event.GetRepository owner name (Except.ok curRepo),
       Event.ExtractGitHubRepositoryName (if o.repo ≠ [] then o.repo else defaultRepository)
         (Except.ok (owner', name')),
       Event.GetRepository owner' name' (Except.ok issueRepo),
       Event.git ["push".toList, "-u".toList, "origin".toList, branch ++ ":".toList ++ branch] none,
       Event.CreatePullRequest repoID base head title body d r].Sublist (runFrom c o draft w).2
      ∧ repoID = curRepo.ID ∧ base = defBranch ∧ head = branch ∧ d = draft
      ∧ title = (if o.title = [] then firstSummary else o.title)
      ∧ body = (if o.issue ≠ 0 then
                  insertIssueLink firstBody issueRepo.Owner issueRepo.Name o.issue
                else firstBody)
      ∧ ((runFrom c o draft w).2.filter Event.isCreatePullRequest).length = 1 := by
  have h := draftRun_runFrom c o draft w
  generalize (runFrom c o draft w).1 = res at h
  generalize (runFrom c o draft w).2 = t at h hmem ⊢
  cases h
  all_goals
    repeat' first
      | cases ‹UncommittedRun _ _›
      | cases ‹GatedRun _ _ _ _ _ _ _ _›
      | cases ‹CurrentRepoRun _ _›
      | cases ‹RepoRun _ _ _›
      | cases ‹IssueRun _ _ _ _›
      | cases ‹AskRun _ _ _›
      | cases ‹PushRun _ _ _ _ _ _ _ _ _ _›
      | cases ‹CreateRun _ _ _ _ _ _ _ _›
  all_goals
    simp only [List.cons_append, List.nil_append, List.append_assoc, List.mem_cons,
      List.mem_singleton, List.mem_nil_iff, Event.CreatePullRequest.injEq, reduceCtorEq,
      false_or, or_false, false_and, and_false] at hmem
  all_goals
    obtain ⟨rfl, rfl, rfl, rfl, rfl, rfl, rfl⟩ := hmem
    iterate 12 apply Exists.intro
    refine ⟨?_, rfl, rfl, rfl, rfl, rfl, rfl, ?_⟩
    · simp only [List.cons_append, List.nil_append, List.append_assoc]
      repeat first
        | exact List.Sublist.refl _
        | exact List.nil_sublist _
        | apply List.Sublist.cons₂
        | apply List.Sublist.cons
    · simp [List.filter, Event.isCreatePullRequest]

theorem runDraftCmd_createPullRequest_witness :
    Event.CreatePullRequest "R_neco".toList "main".toList "topic".toList "Fix it".toList
        "Fix it\n\nSigned-off-by: foo".toList true
        (Except.ok { ID := "PR_1".toList, Permalink := "https://example.com/pull/1".toList })
      ∈ (runFrom scripted DraftOpts.zero true
          { branch := "topic".toList, defBranch := "main".toList, clean := true,
            answers := [], pushError := none }).2
      ∧ ((runFrom scripted DraftOpts.zero true
          { branch := "topic".toList, defBranch := "main".toList, clean := true,
            answers := [], pushError := none }).2.filter Event.isCreatePullRequest).length = 1 :=
  ⟨by decide, by
    obtain ⟨_, _, _, _, _, _, _, _, _, _, _, _, h⟩ :=
      runDraftCmd_createPullRequest scripted DraftOpts.zero true
        { branch := "topic".toList, defBranch := "main".toList, clean := true,
          answers := [], pushError := none }
        "R_neco".toList "main".toList "topic".toList "Fix it".toList
        "Fix it\n\nSigned-off-by: foo".toList true
        (Except.ok { ID := "PR_1".toList, Permalink := "https://example.com/pull/1".toList })
        (by decide)
    exact h.2.2.2.2.2.2.2⟩

set_option maxHeartbeats 4000000 in
/-- C16. `confirmUncommitted` returns true without a question when
`checkUncommittedFiles` reports a clean tree, and otherwise prints the warning
and returns what `askYorN` makes of the answer to `Continue?`.  In a run, a
call of `GetIssueTitle` or the question `Is this ok?` occurs only when the
issue number is not 0; with issue number 0, once both repositories are found,
the push is the call that follows the lookup of the issue repository. -/
theorem confirmation_gates {W : Type} (c : Collaborators W) (o : DraftOpts) (draft : Bool)
    (w : W) :
    (∀ (s : RunState W) (w' : W), c.checkUncommittedFiles s.world = (Except.ok true, w') →
        confirmUncommitted c s
          = (Except.ok true,
              { world := w', trace := s.trace ++ [Event.checkUncommittedFiles (Except.ok true)] }))
      ∧ (∀ (s : RunState W) (w' : W), c.checkUncommittedFiles s.world = (Except.ok false, w') →
        confirmUncommitted c s
          = askYorN c "Continue?".toList
              { world := w',
                trace := s.trace ++ [Event.checkUncommittedFiles (Except.ok false),
                  Event.stdout "WARNING: you have uncommitted files.\n".toList] })
      ∧ (∀ e ∈ (runFrom c o draft w).2, e.isIssuePrompt = true → o.issue ≠ 0)
      ∧ (o.issue = 0 → 2 ≤ ((runFrom c o draft w).2.filter Event.isRepositoryFound).length →
          ∃ (pre : List Event) (owner name : Str) (issueRepo : GitHubRepository) (branch : Str)
            (res : Option GoError) (post : List Event),
            (runFrom c o draft w).2
              = pre ++ Event.GetRepository owner name (Except.ok issueRepo)
                  :: Event.git ["push".toList, "-u".toList, "origin".toList,
                      branch ++ ":".toList ++ branch] res
                  :: post) := by
  refine ⟨?_, ?_, ?_, ?_⟩
  · intro s w' h
    simp [confirmUncommitted, call_eq, h]
  · intro s w' h
    simp [confirmUncommitted, call_eq, h, fmtPrint]
  · have h := draftRun_runFrom c o draft w
    generalize (runFrom c o draft w).1 = res at h
    generalize (runFrom c o draft w).2 = t at h ⊢
    cases h
    all_goals
      repeat' first
        | cases ‹UncommittedRun _ _›
        | cases ‹GatedRun _ _ _ _ _ _ _ _›
        | cases ‹CurrentRepoRun _ _›
        | cases ‹RepoRun _ _ _›
        | cases ‹IssueRun _ _ _ _›
        | cases ‹AskRun _ _ _›
        | cases ‹PushRun _ _ _ _ _ _ _ _ _ _›
        | cases ‹CreateRun _ _ _ _ _ _ _ _›
    all_goals
      simp_all [Event.isIssuePrompt]
  · intro h0 hcount
    have h := draftRun_runFrom c o draft w
    generalize (runFrom c o draft w).1 = res at h
    generalize (runFrom c o draft w).2 = t at h hcount ⊢
    cases h
    all_goals
      repeat' first
        | cases ‹UncommittedRun _ _›
        | cases ‹GatedRun _ _ _ _ _ _ _ _›
        | cases ‹CurrentRepoRun _ _›
        | cases ‹RepoRun _ _ _›
        | cases ‹IssueRun _ _ _ _›
        | cases ‹AskRun _ _ _›
        | cases ‹PushRun _ _ _ _ _ _ _ _ _ _›
        | cases ‹CreateRun _ _ _ _ _ _ _ _›
    all_goals
      first
        | exact absurd h0 ‹¬ o.issue = 0›
        | exact ⟨[_, _, _, _, _, _, _, _], _, _, _, _, _, _, rfl⟩
        | exact ⟨[_, _, _, _, _, _, _, _, _, _], _, _, _, _, _, _, rfl⟩
        | (exfalso
           simp [List.filter, Event.isRepositoryFound] at hcount)

set_option maxHeartbeats 4000000 in
/-- C17. In a run, the first repository spec that is resolved is the origin
URL, and the second one, that of the issue repository, is the `repo` option
when it is not empty and `cybozu/csa` when it is empty; there is no third.
After `taskArguments` has read the bare number `42`, the option is empty, so
the issue is looked up in `cybozu/csa`. -/
theorem runDraftCmd_issue_repository {W : Type} (c : Collaborators W) (o : DraftOpts)
    (draft : Bool) (w : W) :
    (∀ spec, ((runFrom c o draft w).2.filterMap Event.repoSpec)[1]? = some spec →
        spec = (if o.repo ≠ [] then o.repo else "cybozu/csa".toList))
      ∧ (∀ origin, ((runFrom c o draft w).2.filterMap Event.repoSpec)[0]? = some origin →
        Event.originURL (Except.ok origin) ∈ (runFrom c o draft w).2)
      ∧ ((runFrom c o draft w).2.filterMap Event.repoSpec).length ≤ 2
      ∧ (if (taskArguments DraftOpts.zero ["42".toList]).2.repo ≠ []
          then (taskArguments DraftOpts.zero ["42".toList]).2.repo else "cybozu/csa".toList)
        = "cybozu/csa".toList := by
  have key : (∀ spec, ((runFrom c o draft w).2.filterMap Event.repoSpec)[1]? = some spec →
        spec = (if o.repo ≠ [] then o.repo else "cybozu/csa".toList))
      ∧ (∀ origin, ((runFrom c o draft w).2.filterMap Event.repoSpec)[0]? = some origin →
        Event.originURL (Except.ok origin) ∈ (runFrom c o draft w).2)
      ∧ ((runFrom c o draft w).2.filterMap Event.repoSpec).length ≤ 2 := by
    have h := draftRun_runFrom c o draft w
    generalize (runFrom c o draft w).1 = res at h
    generalize (runFrom c o draft w).2 = t at h ⊢
    cases h
    all_goals
      repeat' first
        | cases ‹UncommittedRun _ _›
        | cases ‹GatedRun _ _ _ _ _ _ _ _›
        | cases ‹CurrentRepoRun _ _›
        | cases ‹RepoRun _ _ _›
        | cases ‹IssueRun _ _ _ _›
        | cases ‹AskRun _ _ _›
        | cases ‹PushRun _ _ _ _ _ _ _ _ _ _›
        | cases ‹CreateRun _ _ _ _ _ _ _ _›
    all_goals
      simp [List.filterMap, Event.repoSpec, defaultRepository]
  exact ⟨key.1, key.2.1, key.2.2, by decide⟩

theorem confirmation_gates_witness :
    DraftOpts.zero.issue = 0
      ∧ 2 ≤ ((runFrom scripted DraftOpts.zero true
          { branch := "topic".toList, defBranch := "main".toList, clean := true,
            answers := [], pushError := none }).2.filter Event.isRepositoryFound).length
      ∧ ∃ (pre : List Event) (owner name : Str) (issueRepo : GitHubRepository) (branch : Str)
          (res : Option GoError) (post : List Event),
          (runFrom scripted DraftOpts.zero true
            { branch := "topic".toList, defBranch := "main".toList, clean := true,
              answers := [], pushError := none }).2
            = pre ++ Event.GetRepository owner name (Except.ok issueRepo)
                :: Event.git ["push".toList, "-u".toList, "origin".toList,
                    branch ++ ":".toList ++ branch] res
                :: post :=
  ⟨rfl, by decide,
    (confirmation_gates scripted DraftOpts.zero true
      { branch := "topic".toList, defBranch := "main".toList, clean := true,
        answers := [], pushError := none }).2.2.2 rfl (by decide)⟩

theorem runDraftCmd_issue_repository_witness :
    ((runFrom scripted (taskArguments DraftOpts.zero ["42".toList]).2 true
        { branch := "topic".toList, defBranch := "main".toList, clean := true,
          answers := ["y".toList], pushError := none }).2.filterMap Event.repoSpec)[1]?
      = some "cybozu/csa".toList
      ∧ "cybozu/csa".toList
        = (if (taskArguments DraftOpts.zero ["42".toList]).2.repo ≠ []
            then (taskArguments DraftOpts.zero ["42".toList]).2.repo else "cybozu/csa".toList) :=
  ⟨by decide,
    (runDraftCmd_issue_repository scripted (taskArguments DraftOpts.zero ["42".toList]).2 true
      { branch := "topic".toList, defBranch := "main".toList, clean := true,
        answers := ["y".toList], pushError := none }).1 "cybozu/csa".toList (by decide)⟩

/-! ## Claims C18 to C20 -/

/-- C18, as stated, fails: `acme/widgets#x` is refused with the error of
`strconv.Atoi`, and `repo` has been set to `acme/widgets` by then. -/
theorem taskArguments_error_with_effect :
    (taskArguments DraftOpts.zero ["acme/widgets#x".toList]).1
        = some (GoError.numError "Atoi" "x".toList ConvErr.ErrSyntax)
      ∧ (taskArguments DraftOpts.zero ["acme/widgets#x".toList]).2
        = { title := [], repo := "acme/widgets".toList, issue := 0 }
      ∧ (taskArguments DraftOpts.zero ["acme/widgets#x".toList]).2 ≠ DraftOpts.zero := by
  decide

/-- C18, amended. When `taskArguments` returns an error, `title` and `issue`
are what they were before the call, and so is `repo`, except in one case: a
single argument with exactly one `#` whose numeric part `strconv.Atoi`
refuses; then `repo` is the text left of the `#`. -/
theorem taskArguments_error_effect (o : DraftOpts) (args : List Str) (err : GoError)
    (h : (taskArguments o args).1 = some err) :
    (taskArguments o args).2.title = o.title
      ∧ (taskArguments o args).2.issue = o.issue
      ∧ (∀ l r, args = [l ++ '#' :: r] → '#' ∉ l → '#' ∉ r →
          (taskArguments o args).2.repo = l ∧ strconvAtoi r = Except.error err)
      ∧ ((¬ ∃ l r, args = [l ++ '#' :: r] ∧ '#' ∉ l ∧ '#' ∉ r) →
          (taskArguments o args).2 = o) := by
  match args, h with
  | [], h => exact absurd h (by simp [taskArguments])
  | _ :: _ :: _, _ =>
    refine ⟨by simp [taskArguments], by simp [taskArguments], ?_, fun _ => by simp [taskArguments]⟩
    intro l r hargs
    simp at hargs
  | [a], h =>
    by_cases hc : 1 < a.count '#'
    · rw [taskArguments_many_sharp o a hc]
      refine ⟨rfl, rfl, ?_, fun _ => rfl⟩
      intro l r hargs hl hr
      have ha : a = l ++ '#' :: r := by simpa using hargs
      rw [ha, List.count_append, List.count_cons_self,
        List.count_eq_zero_of_not_mem hl, List.count_eq_zero_of_not_mem hr] at hc
      exact absurd hc (by decide)
    · obtain ⟨spec, num, ha⟩ := (count_le_one_iff_issueArgument a).1 (by omega)
      rcases ha with ⟨h1, -, h3⟩ | ⟨h1, h2, h3⟩
      · subst h3
        rw [taskArguments_no_sharp o num h1] at h ⊢
        cases hp : strconvAtoi num with
        | ok v => rw [hp] at h; cases h
        | error e =>
          refine ⟨rfl, rfl, ?_, fun _ => rfl⟩
          intro l r hargs hl hr
          have ha : num = l ++ '#' :: r := by simpa using hargs
          exact absurd (by rw [ha]; simp) h1
      · subst h3
        rw [taskArguments_one_sharp o spec num h1 h2] at h ⊢
        cases hp : strconvAtoi num with
        | ok v => rw [hp] at h; cases h
        | error e =>
          rw [hp] at h
          have he : e = err := by simpa using h
          subst he
          refine ⟨rfl, rfl, ?_, fun hn => absurd ⟨spec, num, rfl, h1, h2⟩ hn⟩
          intro l r hargs hl hr
          have ha : spec ++ '#' :: num = l ++ '#' :: r := by simpa using hargs
          have hsl : (stringsSplit '#' (spec ++ '#' :: num)) = (stringsSplit '#' (l ++ '#' :: r)) := by
            rw [ha]
          rw [stringsSplit_append_sep _ _ _ h1, stringsSplit_append_sep _ _ _ hl,
            stringsSplit_of_not_mem _ _ h2, stringsSplit_of_not_mem _ _ hr] at hsl
          have hl' : spec = l := by simpa using (List.cons.inj hsl).1
          have hr' : num = r := by simpa using (List.cons.inj hsl).2
          subst hl' hr'
          exact ⟨rfl, hp⟩

theorem taskArguments_error_effect_witness :
    (taskArguments { title := "t".toList, repo := "old".toList, issue := 3 }
        ["acme/widgets#x".toList]).1
      = some (GoError.numError "Atoi" "x".toList ConvErr.ErrSyntax)
      ∧ (taskArguments { title := "t".toList, repo := "old".toList, issue := 3 }
          ["acme/widgets#x".toList]).2.issue = 3 :=
  ⟨by decide,
    (taskArguments_error_effect { title := "t".toList, repo := "old".toList, issue := 3 }
      ["acme/widgets#x".toList] (GoError.numError "Atoi" "x".toList ConvErr.ErrSyntax)
      (by decide)).2.1⟩

/-- C19. The result of `insertIssueLink` contains the text `issue: o/n#i`:
the issue link occurs in it, and `strings.Contains` finds it there. -/
theorem insertIssueLink_contains_link (m o n : Str) (i : Int) :
    issueLink o n i <:+: insertIssueLink m o n i
      ∧ stringsContains (insertIssueLink m o n i) (issueLink o n i) = true :=
  ⟨issueLink_infix_insertIssueLink m o n i,
    (stringsContains_iff _ _).2 (issueLink_infix_insertIssueLink m o n i)⟩

/-- C20. `insertIssueLink` keeps every byte of the message in place: the
message is `h ++ t` and the result is `h ++ s ++ t`, where `s` is empty or is
the issue link with at most one newline before it and at most one after it.
So the result is at most 2 bytes longer than message and link together. -/
theorem insertIssueLink_keeps_message (m o n : Str) (i : Int) :
    (∃ h t s, m = h ++ t ∧ insertIssueLink m o n i = h ++ s ++ t
        ∧ (s = [] ∨ ∃ a b, (a = [] ∨ a = ['\n']) ∧ (b = [] ∨ b = ['\n'])
            ∧ s = a ++ issueLink o n i ++ b))
      ∧ (insertIssueLink m o n i).length ≤ m.length + (issueLink o n i).length + 2 := by
  have key : ∃ h t s, m = h ++ t ∧ insertIssueLink m o n i = h ++ s ++ t
      ∧ (s = [] ∨ ∃ a b, (a = [] ∨ a = ['\n']) ∧ (b = [] ∨ b = ['\n'])
          ∧ s = a ++ issueLink o n i ++ b) := by
    by_cases hc : issueLink o n i <:+: m
    · exact ⟨m, [], [], by simp, by rw [insertIssueLink_of_contains m o n i hc]; simp, Or.inl rfl⟩
    · cases hk : indexAux signedOffBy m with
      | none =>
        refine ⟨m, [], (if m ≠ [] ∧ ¬ ['\n'] <:+ m then ['\n'] else []) ++ issueLink o n i,
          by simp, ?_,
          Or.inr ⟨(if m ≠ [] ∧ ¬ ['\n'] <:+ m then ['\n'] else []), [], ?_, Or.inl rfl,
            by simp⟩⟩
        · rw [insertIssueLink_of_no_index m o n i hc hk]; simp
        · split
          · exact Or.inr rfl
          · exact Or.inl rfl
      | some k =>
        refine ⟨m.take k, m.drop k,
          (if m.take k ≠ [] ∧ ¬ ['\n'] <:+ m.take k then ['\n'] else []) ++ issueLink o n i
            ++ ['\n'],
          (List.take_append_drop k m).symm, ?_,
          Or.inr ⟨(if m.take k ≠ [] ∧ ¬ ['\n'] <:+ m.take k then ['\n'] else []), ['\n'], ?_,
            Or.inr rfl, rfl⟩⟩
        · rw [insertIssueLink_of_index m o n i k hc hk]; simp
        · split
          · exact Or.inr rfl
          · exact Or.inl rfl
  refine ⟨key, ?_⟩
  obtain ⟨h, t, s, hm, hout, hs⟩ := key
  rw [hout, hm]
  rcases hs with rfl | ⟨a, b, ha, hb, rfl⟩
  · simp only [List.length_append, List.length_nil]
    omega
  · have hla : a.length ≤ 1 := by rcases ha with rfl | rfl <;> simp
    have hlb : b.length ≤ 1 := by rcases hb with rfl | rfl <;> simp
    simp only [List.length_append]
    omega

end Csa
